import Mathlib

set_option maxRecDepth 8192

/-! Verification development for the option-identity and option-store core of
    the build tool (source file mesonbuild/coredata.py). Python strings are
    modelled as lists of characters; Python dicts keyed by strings are
    modelled as insertion-ordered association lists. -/

/-- Python strings are modelled as lists of characters. -/
abbrev Str := List Char

/-- Conversion from Lean string literals to the character-list model. -/
def str (s : String) : Str := s.data

/-- Result monad modelling Python control flow: a raised exception is `err`,
    normal return is `ok`. -/
inductive Res (ε : Type) (α : Type) where
  | err (e : ε)
  | ok (a : α)
deriving DecidableEq

def Res.bind {ε α β : Type} : Res ε α → (α → Res ε β) → Res ε β
  | .err e, _ => .err e
  | .ok a, f => f a

instance {ε : Type} : Monad (Res ε) where
  pure := Res.ok
  bind := Res.bind

/-- Errors and faults raised by the embedded code. `mesonMsg` is a
    MesonException carrying its message; `unknownOption` is the MesonException
    raised by `get_builtin_option_raw` (it carries the repr of the key);
    `assertFail` models a failing `assert` (AssertionError, a programming
    fault); `keyError` models a Python KeyError; `valueError` an uncaught
    ValueError; `unboundLocal` an UnboundLocalError naming the unbound
    variable; `versionMismatch` is MesonVersionMismatchException carrying the
    old and the current version string. -/
inductive MErr where
  | mesonMsg (msg : Str)
  | unknownOption (k : Str)
  | assertFail
  | keyError (s : Str)
  | valueError
  | unboundLocal (nm : Str)
  | versionMismatch (old cur : Str)
deriving DecidableEq

/-- Model of Python `s.split(c)` for a one-character separator: always returns
    a non-empty list of fragments. -/
def splitOnChar (c : Char) : Str → List Str
  | [] => [[]]
  | a :: rest =>
    match splitOnChar c rest with
    | [] => [[a]]
    | h :: t => if a = c then [] :: h :: t else (a :: h) :: t

/-- Model of Python `s.startswith(p)` (first argument is the candidate
    prefix). -/
def startsWith : Str → Str → Bool
  | [], _ => true
  | _ :: _, [] => false
  | p :: ps, s :: ss => p = s && startsWith ps ss

/-- Model of Python `s.endswith(p)` (first argument is the candidate
    suffix). -/
def endsWith (suf s : Str) : Bool :=
  startsWith suf.reverse s.reverse

/-- Model of Python `s.split(c, 1)` when the separator occurs: the fragment
    before the first occurrence of `c` and everything after it. -/
def splitFirst (c : Char) : Str → Option (Str × Str)
  | [] => none
  | a :: rest =>
    if a = c then some ([], rest)
    else (splitFirst c rest).map (fun p => (a :: p.1, p.2))

/-- Model of the Python substring test `needle in hay`. -/
def containsSub (needle : Str) : Str → Bool
  | [] => startsWith needle []
  | s :: rest => startsWith needle (s :: rest) || containsSub needle rest

/-- Target-machine tag: the machine the outputs run on (`host`) or the
    machine doing the compiling (`build`). -/
inductive MachineChoice where
  | build
  | host
deriving DecidableEq

/-- OptionKey: the composite option identifier
    (name, subproject, machine, language) from coredata.py. -/
structure OptionKey where
  name : Str
  subproject : Str
  machine : MachineChoice
  language : Option Str
deriving DecidableEq

/-- OptionKey.as_root: clear the subproject. -/
def OptionKey.asRoot (k : OptionKey) : OptionKey :=
  { k with subproject := [] }

/-- OptionKey.as_host: force the host machine. -/
def OptionKey.asHost (k : OptionKey) : OptionKey :=
  { k with machine := MachineChoice.host }

/-- OptionKey.as_build: force the build machine. -/
def OptionKey.asBuild (k : OptionKey) : OptionKey :=
  { k with machine := MachineChoice.build }

/-- OptionKey.__str__: the canonical rendered form
    `[subproject:][build.][language_]name`. A falsy (empty) language or
    subproject is not rendered, exactly as in the source. -/
def OptionKey.render (k : OptionKey) : Str :=
  let out := k.name
  let out :=
    match k.language with
    | some l => if l ≠ [] then l ++ '_' :: out else out
    | none => out
  let out := if k.machine = MachineChoice.build then str "build." ++ out else out
  if k.subproject ≠ [] then k.subproject ++ ':' :: out else out

/-- The literal "build." used by `OptionKey.from_string`. -/
def buildDot : Str := str "build."

/-- First stage of OptionKey.from_string: `raw.split(':')` unpacked into two
    parts. The unpacking succeeds only when there is exactly one colon;
    otherwise the ValueError is caught and the subproject is empty. -/
def colonSplit (raw : Str) : Str × Str :=
  match splitOnChar ':' raw with
  | [a, b] => (a, b)
  | _ => ([], raw)

/-- Third stage of OptionKey.from_string: a language prefix is recognised
    when the option starts with `lang_` for some known language, and is then
    split at the first underscore. The two trailing `assert` statements of
    the source are modelled as `assertFail`. -/
def langStage (langs : List Str) (subproject : Str) (forMachine : MachineChoice)
    (opt0 : Str) : Res MErr OptionKey :=
  if langs.any (fun l => startsWith (l ++ ['_']) opt0) then
    match splitFirst '_' opt0 with
    | some p =>
      if p.2.contains ':' then Res.err MErr.assertFail
      else if containsSub buildDot p.2 then Res.err MErr.assertFail
      else Res.ok ⟨p.2, subproject, forMachine, some p.1⟩
    | none => Res.err MErr.valueError
  else
    if opt0.contains ':' then Res.err MErr.assertFail
    else if containsSub buildDot opt0 then Res.err MErr.assertFail
    else Res.ok ⟨opt0, subproject, forMachine, none⟩

/-- Second stage of OptionKey.from_string: the `build.` marker is detected
    with startswith and removed with `lstrip`, which strips *characters*
    drawn from the set of "build.", not the prefix itself. -/
def machineStage (langs : List Str) (subproject raw2 : Str) : Res MErr OptionKey :=
  if startsWith buildDot raw2 then
    langStage langs subproject MachineChoice.build
      (raw2.dropWhile (fun c => buildDot.contains c))
  else
    langStage langs subproject MachineChoice.host raw2

/-- OptionKey.from_string: parse the canonical command-line form
    `[subproject:][build.][language_]name`. The set of language prefixes is
    the imported `all_languages` table, passed here as a parameter. -/
def OptionKey.from_string (langs : List Str) (raw : Str) : Res MErr OptionKey :=
  machineStage langs (colonSplit raw).1 (colonSplit raw).2

theorem splitOnChar_of_not_mem {c : Char} {s : Str} (h : c ∉ s) :
    splitOnChar c s = [s] := by
  induction s with
  | nil => rfl
  | cons a rest ih =>
    have hne : a ≠ c := fun e => h (e ▸ List.mem_cons_self a rest)
    have hr : c ∉ rest := fun hm => h (List.mem_cons_of_mem _ hm)
    simp [splitOnChar, ih hr, hne]

theorem splitOnChar_sep {c : Char} {a b : Str} (ha : c ∉ a) (hb : c ∉ b) :
    splitOnChar c (a ++ c :: b) = [a, b] := by
  induction a with
  | nil => simp [splitOnChar, splitOnChar_of_not_mem hb]
  | cons x xs ih =>
    have hx : x ≠ c := fun e => ha (e ▸ List.mem_cons_self x xs)
    have hxs : c ∉ xs := fun hm => ha (List.mem_cons_of_mem _ hm)
    simp [splitOnChar, ih hxs, hx]

theorem startsWith_append (p t : Str) : startsWith p (p ++ t) = true := by
  induction p with
  | nil => rfl
  | cons x xs ih => simp [startsWith, ih]

theorem dropWhile_append_of_all {p : Char → Bool} {a b : Str}
    (h : ∀ x ∈ a, p x = true) : (a ++ b).dropWhile p = b.dropWhile p := by
  induction a with
  | nil => rfl
  | cons x xs ih =>
    simp [List.dropWhile_cons, h x (List.mem_cons_self x xs),
      ih (fun y hy => h y (List.mem_cons_of_mem _ hy))]

theorem dropWhile_of_head_not {p : Char → Bool} {s : Str} (hne : s ≠ [])
    (h : p s.head! = false) : s.dropWhile p = s := by
  cases s with
  | nil => simp at hne
  | cons x xs =>
    simp [List.head!] at h
    simp [List.dropWhile_cons, h]

theorem splitFirst_sep {c : Char} {l n : Str} (h : c ∉ l) :
    splitFirst c (l ++ c :: n) = some (l, n) := by
  induction l with
  | nil => simp [splitFirst]
  | cons x xs ih =>
    have hx : x ≠ c := fun e => h (e ▸ List.mem_cons_self x xs)
    have hxs : c ∉ xs := fun hm => h (List.mem_cons_of_mem _ hm)
    simp [splitFirst, hx, ih hxs]

theorem any_lang_of_mem {langs : List Str} {l n : Str} (h : l ∈ langs) :
    langs.any (fun l2 => startsWith (l2 ++ ['_']) (l ++ '_' :: n)) = true := by
  refine List.any_eq_true.mpr ⟨l, h, ?_⟩
  have e : l ++ '_' :: n = (l ++ ['_']) ++ n := by simp
  rw [e]
  exact startsWith_append _ _

theorem langStage_none {langs : List Str} {sp n : Str} {m : MachineChoice}
    (hany : langs.any (fun l => startsWith (l ++ ['_']) n) = false)
    (hc : ':' ∉ n) (hb : containsSub buildDot n = false) :
    langStage langs sp m n = Res.ok ⟨n, sp, m, none⟩ := by
  simp [langStage, hany, hb, hc]

theorem langStage_some {langs : List Str} {sp l n : Str} {m : MachineChoice}
    (hl : l ∈ langs) (hu : '_' ∉ l) (hc : ':' ∉ n)
    (hb : containsSub buildDot n = false) :
    langStage langs sp m (l ++ '_' :: n) = Res.ok ⟨n, sp, m, some l⟩ := by
  simp [langStage, any_lang_of_mem hl, splitFirst_sep hu, hb, hc]

theorem machineStage_build {langs : List Str} {sp s1 : Str}
    (hne : s1 ≠ []) (hh : buildDot.contains s1.head! = false) :
    machineStage langs sp (buildDot ++ s1) =
      langStage langs sp MachineChoice.build s1 := by
  have h1 : startsWith buildDot (buildDot ++ s1) = true := startsWith_append _ _
  have hh2 : (fun c => decide (c ∈ buildDot)) s1.head! = false := by simpa using hh
  have h2 : (buildDot ++ s1).dropWhile (fun c => decide (c ∈ buildDot)) = s1 := by
    rw [dropWhile_append_of_all (by decide)]
    exact dropWhile_of_head_not hne hh2
  simp [machineStage, h1, h2]

theorem machineStage_host {langs : List Str} {sp s1 : Str}
    (h : startsWith buildDot s1 = false) :
    machineStage langs sp s1 = langStage langs sp MachineChoice.host s1 := by
  simp [machineStage, h]

theorem colonSplit_of_not_mem {s : Str} (h : ':' ∉ s) : colonSplit s = ([], s) := by
  simp [colonSplit, splitOnChar_of_not_mem h]

theorem colonSplit_sep {sp s2 : Str} (h1 : ':' ∉ sp) (h2 : ':' ∉ s2) :
    colonSplit (sp ++ ':' :: s2) = (sp, s2) := by
  simp [colonSplit, splitOnChar_sep h1 h2]

/-- The language-prefixed option text `[language_]name` of a key, the part of
    the rendered form that follows the machine marker. -/
def langPrefixed (k : OptionKey) : Str :=
  match k.language with
  | some l => if l ≠ [] then l ++ '_' :: k.name else k.name
  | none => k.name

/-- C1 (amended theorem). Parsing the rendered canonical string returns the
    original key, provided the rendered form re-splits unambiguously: no colon
    in the name, the subproject or the language; the name does not contain the
    substring "build."; a present language is a non-empty known language
    without an underscore; an absent language means the name does not start
    with a known language prefix; and for a BUILD-machine key the
    language-prefixed name is non-empty and does not begin with one of the
    characters of "build." (because the source removes the machine marker
    with `lstrip`, which strips characters, not the prefix), while for a
    HOST-machine key it does not itself start with "build.". -/
theorem C1_render_roundtrip (langs : List Str) (k : OptionKey)
    (hn : ':' ∉ k.name)
    (hs : ':' ∉ k.subproject)
    (hbn : containsSub buildDot k.name = false)
    (hlang : match k.language with
      | none => langs.any (fun l => startsWith (l ++ ['_']) k.name) = false
      | some l => l ≠ [] ∧ l ∈ langs ∧ '_' ∉ l ∧ ':' ∉ l)
    (hmach : match k.machine with
      | MachineChoice.build =>
          langPrefixed k ≠ [] ∧ buildDot.contains (langPrefixed k).head! = false
      | MachineChoice.host => startsWith buildDot (langPrefixed k) = false) :
    OptionKey.from_string langs (OptionKey.render k) = Res.ok k := by
  obtain ⟨n, sp, m, lang⟩ := k
  cases lang with
  | none =>
    simp only [langPrefixed] at hmach
    simp only at hlang
    have hcolon2 : ':' ∉ (if m = MachineChoice.build then buildDot ++ n else n) := by
      cases m with
      | build =>
        simp only [if_pos rfl]
        intro hm
        rcases List.mem_append.mp hm with h | h
        · exact absurd h (by decide)
        · exact hn h
      | host => simpa using hn
    have hrest : machineStage langs sp
        (if m = MachineChoice.build then buildDot ++ n else n)
        = Res.ok ⟨n, sp, m, none⟩ := by
      cases m with
      | build =>
        rw [if_pos rfl]
        rw [machineStage_build hmach.1 hmach.2, langStage_none hlang hn hbn]
      | host =>
        simp only [if_neg (by decide : ¬ (MachineChoice.host = MachineChoice.build))]
        rw [machineStage_host hmach, langStage_none hlang hn hbn]
    by_cases hsp : sp = []
    · subst hsp
      have hr : OptionKey.render ⟨n, [], m, none⟩ =
          (if m = MachineChoice.build then buildDot ++ n else n) := by
        simp [OptionKey.render, buildDot]
      unfold OptionKey.from_string
      rw [hr, colonSplit_of_not_mem hcolon2]
      exact hrest
    · have hr : OptionKey.render ⟨n, sp, m, none⟩ =
          sp ++ ':' :: (if m = MachineChoice.build then buildDot ++ n else n) := by
        simp [OptionKey.render, buildDot, hsp]
      unfold OptionKey.from_string
      rw [hr, colonSplit_sep hs hcolon2]
      exact hrest
  | some l =>
    obtain ⟨hl0, hl1, hl2, hl3⟩ := hlang
    simp only [langPrefixed] at hmach
    rw [if_pos hl0] at hmach
    have hcolon2 : ':' ∉ (if m = MachineChoice.build
        then buildDot ++ (l ++ '_' :: n) else (l ++ '_' :: n)) := by
      have hbase : ':' ∉ l ++ '_' :: n := by
        intro hm
        rcases List.mem_append.mp hm with h | h
        · exact hl3 h
        · rcases List.mem_cons.mp h with h | h
          · exact absurd h (by decide)
          · exact hn h
      cases m with
      | build =>
        simp only [if_pos rfl]
        intro hm
        rcases List.mem_append.mp hm with h | h
        · exact absurd h (by decide)
        · exact hbase h
      | host => simpa using hbase
    have hrest : machineStage langs sp
        (if m = MachineChoice.build then buildDot ++ (l ++ '_' :: n) else (l ++ '_' :: n))
        = Res.ok ⟨n, sp, m, some l⟩ := by
      cases m with
      | build =>
        rw [if_pos rfl]
        rw [machineStage_build hmach.1 hmach.2, langStage_some hl1 hl2 hn hbn]
      | host =>
        simp only [if_neg (by decide : ¬ (MachineChoice.host = MachineChoice.build))]
        rw [machineStage_host hmach, langStage_some hl1 hl2 hn hbn]
    by_cases hsp : sp = []
    · subst hsp
      have hr : OptionKey.render ⟨n, [], m, some l⟩ =
          (if m = MachineChoice.build then buildDot ++ (l ++ '_' :: n)
           else (l ++ '_' :: n)) := by
        simp [OptionKey.render, buildDot, hl0]
      unfold OptionKey.from_string
      rw [hr, colonSplit_of_not_mem hcolon2]
      exact hrest
    · have hr : OptionKey.render ⟨n, sp, m, some l⟩ =
          sp ++ ':' :: (if m = MachineChoice.build then buildDot ++ (l ++ '_' :: n)
           else (l ++ '_' :: n)) := by
        simp [OptionKey.render, buildDot, hl0, hsp]
      unfold OptionKey.from_string
      rw [hr, colonSplit_sep hs hcolon2]
      exact hrest

/-- C1 (counterexample). The claim as stated is false: the key named "debug"
    for the BUILD machine (no subproject, no language) renders as
    "build.debug", and parsing that string yields the key named "ebug"
    because `from_string` removes the machine marker with `lstrip("build.")`,
    which strips *characters* of the set b,u,i,l,d,. — including the leading
    "d" of "debug". So `from_string(str(k)) != k` for this public-constructor
    key. The language table used here is a concrete two-language table; the
    result is independent of it since "ebug" contains no underscore. -/
theorem C1_counterexample :
    OptionKey.from_string [str "c", str "cpp"]
        (OptionKey.render ⟨str "debug", [], MachineChoice.build, none⟩) =
      Res.ok ⟨str "ebug", [], MachineChoice.build, none⟩ ∧
    OptionKey.from_string [str "c", str "cpp"]
        (OptionKey.render ⟨str "debug", [], MachineChoice.build, none⟩) ≠
      Res.ok ⟨str "debug", [], MachineChoice.build, none⟩ := by
  constructor
  · decide
  · decide

/-- C1 (witness). The amended round-trip theorem applied at the concrete key
    `sub:build.c_args` with the language table containing c and cpp. -/
theorem C1_witness :
    OptionKey.from_string [str "c", str "cpp"]
        (OptionKey.render ⟨str "args", str "sub", MachineChoice.build, some (str "c")⟩) =
      Res.ok ⟨str "args", str "sub", MachineChoice.build, some (str "c")⟩ :=
  C1_render_roundtrip _ _ (by decide) (by decide) (by decide) (by decide) (by decide)

/-- Stored option values: Python bool, str, int, or list of str, as stored by
    the UserOption subclasses. -/
inductive Value where
  | b (x : Bool)
  | s (x : Str)
  | i (x : Int)
  | arr (xs : List Str)
deriving DecidableEq

/-- A flat raw literal: an element of a raw list value. The embedded code
    only ever asks whether such an element is a string, so one level of
    nesting suffices. -/
inductive RawE where
  | noneV
  | bool (x : Bool)
  | str (x : Str)
  | int (x : Int)
deriving DecidableEq

/-- Raw values passed to validate_value and set_value (the Python Any as
    actually used by the option machinery): None, bool, str, int, or a list
    of raw literals. -/
inductive RawV where
  | noneV
  | bool (x : Bool)
  | str (x : Str)
  | int (x : Int)
  | list (xs : List RawE)
deriving DecidableEq

/-- Conversion of a stored value back to a raw value (used where the source
    passes a stored .value into validate_value or init_option). -/
def rawOfValue : Value → RawV
  | .b x => .bool x
  | .s x => .str x
  | .i x => .int x
  | .arr xs => .list (xs.map RawE.str)

/-- Option kinds: the closed set of UserOption subclasses. Combo carries its
    choice list; feature is the Combo fixed to enabled/disabled/auto but kept
    as its own kind because `BuiltinOption.prefixed_default` tests the class
    identity; integer carries its optional inclusive bounds; array carries
    the element choice list and the split_args flag. -/
inductive OptType where
  | string
  | boolean
  | combo (choices : List Str)
  | feature
  | integer (minV maxV : Option Int)
  | umask
  | array (choices : List Str) (splitArgsF : Bool)
deriving DecidableEq

/-- A live UserOption instance: its kind, description, yielding flag and
    current value. -/
structure UOpt where
  otype : OptType
  description : Str
  yielding : Bool
  value : Value
deriving DecidableEq

/-- Python str.lower restricted to ASCII, as used by the boolean option. -/
def toLower (s : Str) : Str := s.map Char.toLower

/-- Decimal digit run to a natural number; none when a non-digit occurs. -/
def digitsToNat (ds : Str) : Option Nat :=
  ds.foldl
    (fun acc c =>
      match acc with
      | none => none
      | some n => if c.isDigit then some (n * 10 + (c.toNat - 48)) else none)
    (some 0)

/-- Model of Python `int(s)`: optional surrounding spaces, optional sign,
    then decimal digits. -/
def parseInt (s : Str) : Option Int :=
  let t := (((s.dropWhile (fun c => c = ' ')).reverse).dropWhile (fun c => c = ' ')).reverse
  match t with
  | '-' :: ds => if ds ≠ [] then (digitsToNat ds).map (fun n => -(n : Int)) else none
  | '+' :: ds => if ds ≠ [] then (digitsToNat ds).map (fun n => (n : Int)) else none
  | ds => if ds ≠ [] then (digitsToNat ds).map (fun n => (n : Int)) else none

/-- Octal digit run to a natural number; none when a non-octal digit
    occurs. -/
def digitsToNatOct (ds : Str) : Option Nat :=
  ds.foldl
    (fun acc c =>
      match acc with
      | none => none
      | some n =>
        if '0' ≤ c ∧ c ≤ '7' then some (n * 8 + (c.toNat - 48)) else none)
    (some 0)

/-- Model of Python `int(s, 8)` for plain octal digit strings as used by the
    umask option. -/
def parseOct (s : Str) : Option Int :=
  let t := (((s.dropWhile (fun c => c = ' ')).reverse).dropWhile (fun c => c = ' ')).reverse
  if t ≠ [] then (digitsToNatOct t).map (fun n => (n : Int)) else none

/-- Rendering of an integer for error messages. -/
def intToStr (i : Int) : Str :=
  if i < 0 then '-' :: Nat.toDigits 10 i.natAbs else Nat.toDigits 10 i.natAbs

/-- Model of Python str() applied to a raw value, for error messages. -/
def showRaw : RawV → Str
  | .noneV => str "None"
  | .bool true => str "True"
  | .bool false => str "False"
  | .str s => s
  | .int i => intToStr i
  | .list _ => str "[...]"

/-- UserStringOption.validate_value. -/
def validateString (v : RawV) : Res MErr Value :=
  match v with
  | .str s => Res.ok (.s s)
  | v =>
    Res.err (.mesonMsg (str "Value \"" ++ showRaw v ++
      str "\" for string option is not a string."))

/-- UserBooleanOption.validate_value: a bool passes through, a string must be
    a case-insensitive true/false, anything else cannot be converted. -/
def validateBoolean (v : RawV) : Res MErr Value :=
  match v with
  | .bool b => Res.ok (.b b)
  | .str s =>
    if toLower s = str "true" then Res.ok (.b true)
    else if toLower s = str "false" then Res.ok (.b false)
    else Res.err (.mesonMsg (str "Value " ++ s ++ str " is not boolean (true or false)."))
  | v =>
    Res.err (.mesonMsg (str "Value " ++ showRaw v ++
      str " cannot be converted to a boolean"))

/-- Python type word used in the combo error message. -/
def comboTypeWord : RawV → Str
  | .bool _ => str "boolean"
  | .int _ => str "number"
  | _ => str "string"

/-- UserComboOption.validate_value: membership in the choice list. -/
def validateCombo (choices : List Str) (descr : Str) (v : RawV) : Res MErr Value :=
  match v with
  | .str s =>
    if choices.contains s then Res.ok (.s s)
    else
      Res.err (.mesonMsg (str "Value \"" ++ s ++ str "\" (of type \"string\") for combo option \"" ++
        descr ++ str "\" is not one of the choices."))
  | v =>
    Res.err (.mesonMsg (str "Value \"" ++ showRaw v ++ str "\" (of type \"" ++
      comboTypeWord v ++ str "\") for combo option \"" ++ descr ++
      str "\" is not one of the choices."))

/-- UserIntegerOption.validate_value with a parameterised string parser
    (decimal for the plain integer option, octal for the umask option). A
    Python bool is an int subclass and passes the isinstance test. -/
def validateIntegerWith (toint : Str → Option Int) (minV maxV : Option Int)
    (v : RawV) : Res MErr Value :=
  let iv : Res MErr Int :=
    match v with
    | .str s =>
      match toint s with
      | some n => Res.ok n
      | none =>
        Res.err (.mesonMsg (str "Value string \"" ++ s ++
          str "\" is not convertible to an integer."))
    | .bool b => Res.ok (if b then 1 else 0)
    | .int n => Res.ok n
    | _ => Res.err (.mesonMsg (str "New value for integer option is not an integer."))
  iv.bind fun n =>
    match minV with
    | some mn =>
      if n < mn then
        Res.err (.mesonMsg (str "New value " ++ intToStr n ++
          str " is less than minimum value " ++ intToStr mn ++ str "."))
      else
        match maxV with
        | some mx =>
          if mx < n then
            Res.err (.mesonMsg (str "New value " ++ intToStr n ++
              str " is more than maximum value " ++ intToStr mx ++ str "."))
          else Res.ok (.i n)
        | none => Res.ok (.i n)
    | none =>
      match maxV with
      | some mx =>
        if mx < n then
          Res.err (.mesonMsg (str "New value " ++ intToStr n ++
            str " is more than maximum value " ++ intToStr mx ++ str "."))
        else Res.ok (.i n)
      | none => Res.ok (.i n)

/-- UserUmaskOption.validate_value: None or "preserve" is the sentinel,
    everything else goes through the integer validation with octal string
    parsing and the fixed bounds 0 to 0o777. -/
def validateUmask (v : RawV) : Res MErr Value :=
  if v = RawV.noneV ∨ v = RawV.str (str "preserve") then Res.ok (.s (str "preserve"))
  else validateIntegerWith parseOct (some 0) (some 511) v

/-- Python str.strip() restricted to the space character, as used for the
    comma-separated array form. -/
def stripStr (s : Str) : Str :=
  (((s.dropWhile (fun c => c = ' ')).reverse).dropWhile (fun c => c = ' ')).reverse

/-- Modelled from the spec: mesonlib.split_args is not under src; the spec
    calls its input "a shell-argument-lexed string", modelled here as
    whitespace splitting with empty fragments dropped. -/
def splitArgsModel (s : Str) : List Str :=
  ((splitOnChar ' ' s).filter (fun t => t ≠ []))

/-- Modelled from the spec: ast.literal_eval is library code; the spec calls
    this input form "a bracketed list literal". Modelled for a bracketed,
    comma-separated list of double-quoted strings or decimal integers;
    anything else fails like the ValueError the source catches. -/
def parseListLiteral (s : Str) : Option (List RawE) :=
  match s with
  | '[' :: rest =>
    match rest.reverse with
    | ']' :: midRev =>
      let mid := midRev.reverse
      if stripStr mid = [] then some []
      else
        (splitOnChar ',' mid).foldr
          (fun frag acc =>
            match acc with
            | none => none
            | some xs =>
              let t := stripStr frag
              match t with
              | '"' :: more =>
                match more.reverse with
                | '"' :: bodyRev => some (RawE.str bodyRev.reverse :: xs)
                | _ => none
              | _ =>
                if t ≠ [] ∧ t.all Char.isDigit then
                  match digitsToNat t with
                  | some n => some (RawE.int (n : Int) :: xs)
                  | none => none
                else none)
          (some [])
    | _ => none
  | _ => none

/-- Element check tail of UserArrayOption.validate_value: every element must
    be a string, then the optional choice-set check runs per element. The
    duplicate check only emits a non-fatal deprecation warning and is not
    modelled as state. -/
def checkArrayElems (choices : List Str) (xs : List RawE) : Res MErr (List Str) :=
  let strs? : Option (List Str) :=
    xs.foldr
      (fun x acc =>
        match acc, x with
        | some ss, RawE.str s => some (s :: ss)
        | _, _ => none)
      (some [])
  match strs? with
  | none => Res.err (.mesonMsg (str "String array element is not a string."))
  | some ss =>
    if choices ≠ [] then
      let bad := ss.filter (fun x => !(choices.contains x))
      if bad ≠ [] then
        Res.err (.mesonMsg (str "Options \"" ++
          (List.intercalate (str ", ") bad) ++
          str "\" are not in allowed choices: \"" ++
          (List.intercalate (str ", ") choices) ++ str "\""))
      else Res.ok ss
    else Res.ok ss

/-- UserArrayOption.validate_value. Faithful control flow, including the
    final else branch for a value that is neither a string nor a list: the
    source there evaluates `'"\x7b\x7d" should be a string array...'.format(newvalue)`
    but `newvalue` has not been assigned yet on that path, so Python raises
    UnboundLocalError rather than the intended MesonException. -/
def validateArray (choices : List Str) (splitArgsF : Bool) (userInput : Bool)
    (v : RawV) : Res MErr (List Str) :=
  match v with
  | .str s =>
    if userInput = false ∧ startsWith (str "[") s = false then
      Res.err (.mesonMsg (str "Value does not define an array: " ++ s))
    else if startsWith (str "[") s then
      match parseListLiteral s with
      | some xs => checkArrayElems choices xs
      | none => Res.err (.mesonMsg (str "malformed option " ++ s))
    else if s = [] then checkArrayElems choices []
    else if splitArgsF then
      checkArrayElems choices ((splitArgsModel s).map RawE.str)
    else
      checkArrayElems choices ((splitOnChar ',' s).map (fun t => RawE.str (stripStr t)))
  | .list xs => checkArrayElems choices xs
  | _ => Res.err (.unboundLocal (str "newvalue"))

/-- UserOption.validate_value dispatch over the option kind. Array options
    validate with user_input=True here because set_value passes the
    default. -/
def UOpt.validateValue (o : UOpt) (v : RawV) : Res MErr Value :=
  match o.otype with
  | .string => validateString v
  | .boolean => validateBoolean v
  | .combo cs => validateCombo cs o.description v
  | .feature => validateCombo [str "enabled", str "disabled", str "auto"] o.description v
  | .integer mn mx => validateIntegerWith parseInt mn mx v
  | .umask => validateUmask v
  | .array cs sp => (validateArray cs sp true v).bind fun ss => Res.ok (.arr ss)

/-- UserOption.set_value: validate, then replace the stored value. -/
def UOpt.setValue (o : UOpt) (v : RawV) : Res MErr UOpt :=
  (o.validateValue v).bind fun nv => Res.ok { o with value := nv }

/-- A Python dict keyed by strings, as an insertion-ordered association
    list. -/
abbrev Dict := List (Str × UOpt)

/-- Dict lookup (first binding wins; bindings are unique in practice). -/
def lookupD (d : Dict) (k : Str) : Option UOpt :=
  match d with
  | [] => none
  | (k2, v) :: rest => if k2 = k then some v else lookupD rest k

/-- Dict assignment: update in place when the key exists, append
    otherwise. -/
def insertD (d : Dict) (k : Str) (v : UOpt) : Dict :=
  match d with
  | [] => [(k, v)]
  | (k2, v2) :: rest => if k2 = k then (k2, v) :: rest else (k2, v2) :: insertD rest k v

/-- BuiltinOption: the static description of one builtin option (its
    UserOption subclass, description, default raw value and yielding
    flag). For integer-kind options the Python default triple
    (min, max, default) is split between the kind and the default. -/
structure BuiltinOpt where
  otype : OptType
  description : Str
  defaultV : RawV
  yielding : Bool
deriving DecidableEq

/-- Modelled from the spec: compilers.all_languages is not under src; the
    spec speaks of "an unknown language prefix" for the canonical key form,
    and this is the standard language table of the tool. -/
def all_languages : List Str :=
  [str "c", str "cpp", str "cuda", str "objc", str "objcpp", str "d",
   str "fortran", str "java", str "cs", str "swift", str "vala", str "rust"]

/-- Modelled from the spec: mesonlib.default_prefix is not under src; on
    POSIX builds the default installation prefix is /usr/local (the spec
    names /usr and /usr/local as the well-known prefixes). -/
def default_prefixV : Str := str "/usr/local"

/-- Modelled from the spec: mesonlib.default_libdir is not under src; the
    plain default library directory is "lib". -/
def default_libdirV : Str := str "lib"

/-- Modelled from the spec: mesonlib.default_libexecdir is not under src;
    the plain default libexec directory is "libexec". -/
def default_libexecdirV : Str := str "libexec"

/-- builtin_dir_noprefix_options: prefix-dependent defaults for directories
    that live outside the prefix in FHS usage. -/
def builtin_dir_noprefix_options : List (Str × List (Str × Str)) :=
  [(str "sysconfdir", [(str "/usr", str "/etc")]),
   (str "localstatedir", [(str "/usr", str "/var"), (str "/usr/local", str "/var/local")]),
   (str "sharedstatedir", [(str "/usr", str "/var/lib"), (str "/usr/local", str "/var/local/lib")])]

/-- Key lookup in a two-level association table. -/
def lookupPair (t : List (Str × List (Str × Str))) (name pre : Str) : Option Str :=
  match t.find? (fun e => e.1 = name) with
  | some e =>
    match e.2.find? (fun e2 => e2.1 = pre) with
    | some e2 => some e2.2
    | none => none
  | none => none

/-- The names in builtin_dir_noprefix_options. -/
def noprefixNames : List Str := builtin_dir_noprefix_options.map (fun e => e.1)

/-- backendlist: the legal backend choices. -/
def backendlist : List Str :=
  [str "ninja", str "vs", str "vs2010", str "vs2015", str "vs2017",
   str "vs2019", str "xcode"]

/-- BUILTIN_DIR_OPTIONS: the installation directory options. -/
def BUILTIN_DIR_OPTIONS : List (Str × BuiltinOpt) :=
  [(str "prefix", ⟨.string, str "Installation prefix", .str default_prefixV, true⟩),
   (str "bindir", ⟨.string, str "Executable directory", .str (str "bin"), true⟩),
   (str "datadir", ⟨.string, str "Data file directory", .str (str "share"), true⟩),
   (str "includedir", ⟨.string, str "Header file directory", .str (str "include"), true⟩),
   (str "infodir", ⟨.string, str "Info page directory", .str (str "share/info"), true⟩),
   (str "libdir", ⟨.string, str "Library directory", .str default_libdirV, true⟩),
   (str "libexecdir", ⟨.string, str "Library executable directory", .str default_libexecdirV, true⟩),
   (str "localedir", ⟨.string, str "Locale data directory", .str (str "share/locale"), true⟩),
   (str "localstatedir", ⟨.string, str "Localstate data directory", .str (str "var"), true⟩),
   (str "mandir", ⟨.string, str "Manual page directory", .str (str "share/man"), true⟩),
   (str "sbindir", ⟨.string, str "System executable directory", .str (str "sbin"), true⟩),
   (str "sharedstatedir", ⟨.string, str "Architecture-independent data directory", .str (str "com"), true⟩),
   (str "sysconfdir", ⟨.string, str "Sysconf data directory", .str (str "etc"), true⟩)]

/-- BUILTIN_CORE_OPTIONS: the non-directory builtin options. -/
def BUILTIN_CORE_OPTIONS : List (Str × BuiltinOpt) :=
  [(str "auto_features", ⟨.feature, str "Override value of all auto features", .str (str "auto"), true⟩),
   (str "backend", ⟨.combo backendlist, str "Backend to use", .str (str "ninja"), true⟩),
   (str "buildtype",
     ⟨.combo [str "plain", str "debug", str "debugoptimized", str "release", str "minsize", str "custom"],
      str "Build type to use", .str (str "debug"), true⟩),
   (str "debug", ⟨.boolean, str "Debug", .bool true, true⟩),
   (str "default_library",
     ⟨.combo [str "shared", str "static", str "both"], str "Default library type", .str (str "shared"), false⟩),
   (str "errorlogs", ⟨.boolean, str "Whether to print the logs from failing tests", .bool true, true⟩),
   (str "install_umask", ⟨.umask, str "Default umask to apply on permissions of installed files", .str (str "022"), true⟩),
   (str "layout", ⟨.combo [str "mirror", str "flat"], str "Build directory layout", .str (str "mirror"), true⟩),
   (str "optimization",
     ⟨.combo [str "0", str "g", str "1", str "2", str "3", str "s"], str "Optimization level", .str (str "0"), true⟩),
   (str "stdsplit", ⟨.boolean, str "Split stdout and stderr in test logs", .bool true, true⟩),
   (str "strip", ⟨.boolean, str "Strip targets on install", .bool false, true⟩),
   (str "unity", ⟨.combo [str "on", str "off", str "subprojects"], str "Unity build", .str (str "off"), true⟩),
   (str "unity_size", ⟨.integer (some 2) none, str "Unity block size", .int 4, true⟩),
   (str "warning_level",
     ⟨.combo [str "0", str "1", str "2", str "3"], str "Compiler warning level to use", .str (str "1"), false⟩),
   (str "werror", ⟨.boolean, str "Treat warnings as errors", .bool false, false⟩),
   (str "wrap_mode",
     ⟨.combo [str "default", str "nofallback", str "nodownload", str "forcefallback"],
      str "Wrap mode", .str (str "default"), true⟩),
   (str "force_fallback_for", ⟨.array [] false, str "Force fallback for those subprojects", .list [], true⟩)]

/-- BUILTIN_OPTIONS: directory options then core options, in table order. -/
def BUILTIN_OPTIONS : List (Str × BuiltinOpt) :=
  BUILTIN_DIR_OPTIONS ++ BUILTIN_CORE_OPTIONS

/-- BUILTIN_OPTIONS_PER_MACHINE: options duplicated per machine. -/
def BUILTIN_OPTIONS_PER_MACHINE : List (Str × BuiltinOpt) :=
  [(str "pkg_config_path", ⟨.array [] false, str "List of additional paths for pkg-config to search", .list [], true⟩),
   (str "cmake_prefix_path", ⟨.array [] false, str "List of additional prefixes for cmake to search", .list [], true⟩)]

/-- Name lookup in a builtin option table. -/
def lookupB (t : List (Str × BuiltinOpt)) (name : Str) : Option BuiltinOpt :=
  match t.find? (fun e => e.1 = name) with
  | some e => some e.2
  | none => none

/-- The names of the per-machine builtin options. -/
def pmNames : List Str := BUILTIN_OPTIONS_PER_MACHINE.map (fun e => e.1)

/-- BuiltinOption.prefixed_default: combo-class and integer-class options
    keep their plain default (the source tests the exact class, so the umask
    and feature subclasses are not short-circuited here); other kinds consult
    the no-prefix table, falling back to the plain default. -/
def BuiltinOpt.prefixedDefault (b : BuiltinOpt) (name pre : Str) : RawV :=
  match b.otype with
  | .combo _ => b.defaultV
  | .integer _ _ => b.defaultV
  | _ =>
    match lookupPair builtin_dir_noprefix_options name pre with
    | some v => RawV.str v
    | none => b.defaultV

/-- BuiltinOption.init_option: build a live UserOption with the given value,
    or the prefixed default when none is given. An array option validates
    its constructor value with user_input=False, as in the source. -/
def BuiltinOpt.initOption (b : BuiltinOpt) (name : Str) (value : Option RawV)
    (pre : Str) : Res MErr UOpt :=
  let v := match value with
    | none => b.prefixedDefault name pre
    | some x => x
  match b.otype with
  | .array cs sp =>
    (validateArray cs sp false v).bind fun ss =>
      Res.ok ⟨b.otype, b.description, b.yielding, .arr ss⟩
  | _ =>
    UOpt.setValue ⟨b.otype, b.description, b.yielding, .s []⟩ v

/-- CoreData, restricted to the option-store state the claims exercise: the
    global builtin table, the two per-machine builtin tables, the backend,
    user and base option groups, the per-machine compiler option groups
    (language to option dict), and whether cross files were given. -/
structure CoreDataM where
  builtins : Dict
  builtinsPerMachineBuild : Dict
  builtinsPerMachineHost : Dict
  backendOptions : Dict
  userOptions : Dict
  baseOptions : Dict
  compilerOptionsBuild : List (Str × Dict)
  compilerOptionsHost : List (Str × Dict)
  crossFiles : Bool
deriving DecidableEq

/-- The empty store before init_builtins runs. -/
def emptyCoreData (cross : Bool) : CoreDataM :=
  ⟨[], [], [], [], [], [], [], [], cross⟩

/-- Monadic fold threading the exception monad, modelling a Python for
    loop whose body may raise. -/
def foldRes {α β : Type} (f : β → α → Res MErr β) : β → List α → Res MErr β
  | b, [] => Res.ok b
  | b, x :: xs => (f b x).bind fun b2 => foldRes f b2 xs

/-- CoreData.add_builtin_option: for a subproject a yielding option is
    skipped (global only); otherwise the entry is stored under
    `subproject:name` initialised from the root entry's current value. For
    the root the entry is stored under the plain name with the (prefixed)
    default. -/
def addBuiltinOption (optsMap : Dict) (key : Str) (b : BuiltinOpt)
    (subproject : Str) : Res MErr Dict :=
  if subproject ≠ [] then
    if b.yielding then Res.ok optsMap
    else
      match lookupD optsMap key with
      | some o =>
        (b.initOption key (some (rawOfValue o.value)) default_prefixV).bind fun newO =>
          Res.ok (insertD optsMap (subproject ++ ':' :: key) newO)
      | none => Res.err (.keyError key)
  else
    (b.initOption key none default_prefixV).bind fun newO =>
      Res.ok (insertD optsMap key newO)

/-- CoreData.init_builtins for one subproject: every global builtin, then
    every per-machine builtin for each machine. -/
def CoreDataM.initBuiltins (cd : CoreDataM) (subproject : Str) : Res MErr CoreDataM := do
  let bs ← foldRes (fun d kv => addBuiltinOption d kv.1 kv.2 subproject)
    cd.builtins BUILTIN_OPTIONS
  let pb ← foldRes (fun d kv => addBuiltinOption d kv.1 kv.2 subproject)
    cd.builtinsPerMachineBuild BUILTIN_OPTIONS_PER_MACHINE
  let ph ← foldRes (fun d kv => addBuiltinOption d kv.1 kv.2 subproject)
    cd.builtinsPerMachineHost BUILTIN_OPTIONS_PER_MACHINE
  Res.ok { cd with
    builtins := bs, builtinsPerMachineBuild := pb, builtinsPerMachineHost := ph }

/-- The store as CoreData.__init__ leaves it for a native build: all builtins
    initialised for the root project. -/
def initAll : Res MErr CoreDataM :=
  (emptyCoreData false).initBuiltins []

/-- Which physical table a builtin lookup touches. -/
inductive SrcSel where
  | globalT
  | pmBuild
  | pmHost
deriving DecidableEq

/-- The selected table. -/
def CoreDataM.sourceOf (cd : CoreDataM) : SrcSel → Dict
  | .globalT => cd.builtins
  | .pmBuild => cd.builtinsPerMachineBuild
  | .pmHost => cd.builtinsPerMachineHost

/-- Write one entry back into the selected table. -/
def CoreDataM.writeSlot (cd : CoreDataM) (sel : SrcSel) (ks : Str) (o : UOpt) :
    CoreDataM :=
  match sel with
  | .globalT => { cd with builtins := insertD cd.builtins ks o }
  | .pmBuild => { cd with builtinsPerMachineBuild := insertD cd.builtinsPerMachineBuild ks o }
  | .pmHost => { cd with builtinsPerMachineHost := insertD cd.builtinsPerMachineHost ks o }

/-- Lookup part of CoreData.get_builtin_option_raw on an already selected
    table: the direct entry, falling back to the root-scoped key when the
    entry is missing or yielding; missing after fallback is the
    unknown-option error. Returns the table key where the returned option
    object lives, so mutation of the returned object can be replayed. -/
def resolveIn (d : Dict) (sel : SrcSel) (k : OptionKey) :
    Res MErr (SrcSel × Str × UOpt) :=
  match lookupD d k.render with
  | some o =>
    if o.yielding then
      match lookupD d k.asRoot.render with
      | some o2 => Res.ok (sel, k.asRoot.render, o2)
      | none => Res.err (MErr.unknownOption k.render)
    else Res.ok (sel, k.render, o)
  | none =>
    match lookupD d k.asRoot.render with
    | some o2 => Res.ok (sel, k.asRoot.render, o2)
    | none => Res.err (MErr.unknownOption k.render)

/-- CoreData.get_builtin_option_raw, returning the resolved slot: asserts
    the key has no language; per-machine names select the per-machine table
    for the key's machine and drop the build. prefix from the looked-up key;
    all other names assert the host machine and use the global table. -/
def CoreDataM.resolveBuiltinRaw (cd : CoreDataM) (k : OptionKey) :
    Res MErr (SrcSel × Str × UOpt) :=
  if k.language ≠ none then Res.err MErr.assertFail
  else if pmNames.contains k.name then
    let sel := match k.machine with
      | MachineChoice.build => SrcSel.pmBuild
      | MachineChoice.host => SrcSel.pmHost
    resolveIn (cd.sourceOf sel) sel k.asHost
  else if k.machine ≠ MachineChoice.host then Res.err MErr.assertFail
  else resolveIn cd.builtins SrcSel.globalT k

/-- CoreData.get_builtin_option_raw: the resolved option object. -/
def CoreDataM.getBuiltinOptionRaw (cd : CoreDataM) (k : OptionKey) : Res MErr UOpt :=
  (cd.resolveBuiltinRaw k).bind fun r => Res.ok r.2.2

/-- Modelled from the spec: wrap.WrapMode is not under src; the wrap_mode
    choice strings map onto this enumeration. -/
inductive WrapMode where
  | defaultM
  | nofallback
  | nodownload
  | forcefallback
deriving DecidableEq

/-- WrapMode.from_string. -/
def wrapModeFromString (s : Str) : Option WrapMode :=
  if s = str "default" then some .defaultM
  else if s = str "nofallback" then some .nofallback
  else if s = str "nodownload" then some .nodownload
  else if s = str "forcefallback" then some .forcefallback
  else none

/-- Result of CoreData.get_builtin_option: a plain stored value, or the
    WrapMode enum for the wrap_mode option. -/
inductive BuiltinValue where
  | plain (v : Value)
  | wrap (w : WrapMode)
deriving DecidableEq

/-- CoreData.get_builtin_option for a key argument. -/
def CoreDataM.getBuiltinOption (cd : CoreDataM) (k : OptionKey) : Res MErr BuiltinValue :=
  (cd.getBuiltinOptionRaw k).bind fun o =>
    if k.name = str "wrap_mode" then
      match o.value with
      | .s s =>
        match wrapModeFromString s with
        | some w => Res.ok (.wrap w)
        | none => Res.err (.keyError s)
      | _ => Res.err (.keyError [])
    else Res.ok (.plain o.value)

/-- CoreData.get_builtin_option for a string argument: the string is first
    parsed with OptionKey.from_string. -/
def CoreDataM.getBuiltinOptionS (cd : CoreDataM) (s : Str) : Res MErr BuiltinValue :=
  (OptionKey.from_string all_languages s).bind fun k => cd.getBuiltinOption k

/-- Python equality test of a possibly wrapped stored value against a string
    literal (a non-string compares unequal). -/
def bvEqStr (bv : BuiltinValue) (t : Str) : Bool :=
  match bv with
  | .plain (.s x) => x = t
  | _ => false

/-- Python truthiness of a stored value, for `not debug`. -/
def bvTruthy (bv : BuiltinValue) : Bool :=
  match bv with
  | .plain (.b x) => x
  | .plain (.s x) => x ≠ []
  | .plain (.i x) => x ≠ 0
  | .plain (.arr xs) => xs ≠ []
  | .wrap _ => true

/-- Lift a pure computation into the state-carrying error monad: an
    exception raised here carries the store as it stands at the raise
    point. -/
def liftSt {α : Type} (cd : CoreDataM) : Res MErr α → Res (MErr × CoreDataM) α
  | .err e => .err (e, cd)
  | .ok a => .ok a

/-- CoreData.set_others_from_buildtype: the fixed buildtype table drives
    optimization and debug through the low-level raw setter (the source
    explicitly avoids set_builtin_option to prevent recursion); custom is a
    no-op; any other value trips the assert. Exceptions carry the store at
    the raise point (the debug write can in principle fail after the
    optimization write landed). -/
def CoreDataM.setOthersFromBuildtypeSt (cd : CoreDataM) (value : RawV) :
    Res (MErr × CoreDataM) CoreDataM :=
  let row : Option (Str × Bool) :=
    if value = .str (str "plain") then some (str "0", false)
    else if value = .str (str "debug") then some (str "0", true)
    else if value = .str (str "debugoptimized") then some (str "2", true)
    else if value = .str (str "release") then some (str "3", false)
    else if value = .str (str "minsize") then some (str "s", true)
    else none
  match row with
  | none =>
    if value = .str (str "custom") then Res.ok cd
    else Res.err (MErr.assertFail, cd)
  | some od => do
    let r1 ← liftSt cd (cd.resolveBuiltinRaw ⟨str "optimization", [], MachineChoice.host, none⟩)
    let o1 ← liftSt cd (r1.2.2.setValue (.str od.1))
    let cd1 := cd.writeSlot r1.1 r1.2.1 o1
    let r2 ← liftSt cd1 (cd1.resolveBuiltinRaw ⟨str "debug", [], MachineChoice.host, none⟩)
    let o2 ← liftSt cd1 (r2.2.2.setValue (.bool od.2))
    Res.ok (cd1.writeSlot r2.1 r2.2.1 o2)

/-- CoreData.set_buildtype_from_others: read optimization and debug, match
    them against the inverse table (custom when no row matches), and write
    buildtype through the low-level raw setter. -/
def CoreDataM.setBuildtypeFromOthersSt (cd : CoreDataM) :
    Res (MErr × CoreDataM) CoreDataM := do
  let opt ← liftSt cd (cd.getBuiltinOptionS (str "optimization"))
  let debug ← liftSt cd (cd.getBuiltinOptionS (str "debug"))
  let mode :=
    if bvEqStr opt (str "0") && !bvTruthy debug then str "plain"
    else if bvEqStr opt (str "0") && bvTruthy debug then str "debug"
    else if bvEqStr opt (str "2") && bvTruthy debug then str "debugoptimized"
    else if bvEqStr opt (str "3") && !bvTruthy debug then str "release"
    else if bvEqStr opt (str "s") && bvTruthy debug then str "minsize"
    else str "custom"
  let r ← liftSt cd (cd.resolveBuiltinRaw ⟨str "buildtype", [], MachineChoice.host, none⟩)
  let o ← liftSt cd (r.2.2.setValue (.str mode))
  Res.ok (cd.writeSlot r.1 r.2.1 o)

/-- CoreData.set_builtin_option: mutate the resolved option object, then
    recompute the derived options when buildtype, debug or optimization was
    set. Exceptions carry the store at the raise point. -/
def CoreDataM.setBuiltinOptionSt (cd : CoreDataM) (k : OptionKey) (v : RawV) :
    Res (MErr × CoreDataM) CoreDataM := do
  let r ← liftSt cd (cd.resolveBuiltinRaw k)
  let o ← liftSt cd (r.2.2.setValue v)
  let cd2 := cd.writeSlot r.1 r.2.1 o
  if k.name = str "buildtype" then cd2.setOthersFromBuildtypeSt v
  else if k.name = str "debug" ∨ k.name = str "optimization" then
    cd2.setBuildtypeFromOthersSt
  else Res.ok cd2

/-- CoreData.set_builtin_option with the carried state dropped (for callers
    that only observe the raised exception). -/
def CoreDataM.setBuiltinOption (cd : CoreDataM) (k : OptionKey) (v : RawV) :
    Res MErr CoreDataM :=
  match cd.setBuiltinOptionSt k v with
  | .err e => .err e.1
  | .ok c => .ok c

/-- Which table CoreData.get_builtin_option_raw selects for a key: the
    per-machine table for the key's machine when the name is per-machine,
    the global table otherwise. -/
def selForKey (k : OptionKey) : SrcSel :=
  if pmNames.contains k.name then
    match k.machine with
    | MachineChoice.build => SrcSel.pmBuild
    | MachineChoice.host => SrcSel.pmHost
  else SrcSel.globalT

/-- The key actually looked up by CoreData.get_builtin_option_raw: the
    build. prefix is dropped for per-machine names. -/
def lookKeyFor (k : OptionKey) : OptionKey :=
  if pmNames.contains k.name then k.asHost else k

theorem resolveIn_asRoot {d : Dict} {sel : SrcSel} {k : OptionKey}
    (hy : match lookupD d k.render with
      | some o => o.yielding = true
      | none => True)
    (hroot : (lookupD d k.asRoot.render).isSome = true) :
    resolveIn d sel k = resolveIn d sel k.asRoot := by
  have easub : k.asRoot.asRoot = k.asRoot := rfl
  cases hr : lookupD d k.asRoot.render with
  | none => rw [hr] at hroot; simp at hroot
  | some o2 =>
    cases hd : lookupD d k.render with
    | none =>
      simp only [resolveIn, hd, hr, easub]
      cases hy2 : o2.yielding <;> simp [hr]
    | some o =>
      rw [hd] at hy
      simp only [resolveIn, hd, hy, hr, easub]
      cases hy2 : o2.yielding <;> simp [hr]

theorem resolve_eq_resolveIn (cd : CoreDataM) (k : OptionKey)
    (hl : k.language = none)
    (hm : pmNames.contains k.name = true ∨ k.machine = MachineChoice.host) :
    cd.resolveBuiltinRaw k =
      resolveIn (cd.sourceOf (selForKey k)) (selForKey k) (lookKeyFor k) := by
  by_cases hpm : pmNames.contains k.name = true
  · have hmem : k.name ∈ pmNames := by simpa using hpm
    simp [CoreDataM.resolveBuiltinRaw, hl, hmem, selForKey, lookKeyFor]
  · have hnmem : ¬ (k.name ∈ pmNames) := by simpa using hpm
    have hhost : k.machine = MachineChoice.host := by
      rcases hm with h | h
      · exact absurd h hpm
      · exact h
    simp [CoreDataM.resolveBuiltinRaw, hl, hnmem, hhost, selForKey,
      lookKeyFor, CoreDataM.sourceOf]

/-- C2 (amended theorem). For a builtin key whose direct table entry is
    absent or flagged yielding while the root-scoped entry exists, the raw
    resolution of the subproject-scoped key and of the root-scoped key give
    the *same* slot. Consequently a get for subproject s returns the root
    value, a set for subproject s writes the root slot, and a later set of
    the root-scoped key does change what a get for s returns — contrary to
    the original claim, there is no per-subproject storage for a yielding
    builtin option (add_builtin_option skips yielding options for
    subprojects, and get_builtin_option_raw always falls through to the root
    entry for a yielding option). -/
theorem C2_resolve_aliases_root (cd : CoreDataM) (k : OptionKey)
    (hl : k.language = none)
    (hm : pmNames.contains k.name = true ∨ k.machine = MachineChoice.host)
    (hy : match lookupD (cd.sourceOf (selForKey k)) (lookKeyFor k).render with
      | some o => o.yielding = true
      | none => True)
    (hroot : (lookupD (cd.sourceOf (selForKey k)) (lookKeyFor k).asRoot.render).isSome
      = true) :
    cd.resolveBuiltinRaw k = cd.resolveBuiltinRaw k.asRoot := by
  have hl2 : k.asRoot.language = none := hl
  have hm2 : pmNames.contains k.asRoot.name = true ∨
      k.asRoot.machine = MachineChoice.host := hm
  have h1 := resolve_eq_resolveIn cd k hl hm
  have h2 := resolve_eq_resolveIn cd k.asRoot hl2 hm2
  have e1 : selForKey k.asRoot = selForKey k := rfl
  have e2 : lookKeyFor k.asRoot = (lookKeyFor k).asRoot := by
    have en : k.asRoot.name = k.name := rfl
    unfold lookKeyFor
    rw [en]
    by_cases hpm : pmNames.contains k.name = true
    · simp only [hpm, if_pos]
      rfl
    · have hpm2 : pmNames.contains k.name = false := by
        cases hcc : pmNames.contains k.name
        · rfl
        · exact absurd hcc hpm
      simp only [hpm2]
      rfl
  rw [h1, h2, e1, e2]
  exact resolveIn_asRoot hy hroot

/-- C2 (counterexample). The builtin option `layout` is yielding. After
    initialising the root project and the subproject `sub`, setting
    `sub:layout` to flat and then setting the root `layout` to mirror makes
    a subsequent get of `sub:layout` return mirror, not the
    subproject-specific flat value the claim promises: the subproject set
    wrote the root slot, and the later root set overwrote it. -/
theorem C2_counterexample :
    (do
      let cd ← initAll
      let cd ← cd.initBuiltins (str "sub")
      let cd ← cd.setBuiltinOption ⟨str "layout", str "sub", MachineChoice.host, none⟩
        (.str (str "flat"))
      let cd ← cd.setBuiltinOption ⟨str "layout", [], MachineChoice.host, none⟩
        (.str (str "mirror"))
      cd.getBuiltinOption ⟨str "layout", str "sub", MachineChoice.host, none⟩) =
      Res.ok (BuiltinValue.plain (.s (str "mirror"))) ∧
    (do
      let cd ← initAll
      let cd ← cd.initBuiltins (str "sub")
      let cd ← cd.setBuiltinOption ⟨str "layout", str "sub", MachineChoice.host, none⟩
        (.str (str "flat"))
      let cd ← cd.setBuiltinOption ⟨str "layout", [], MachineChoice.host, none⟩
        (.str (str "mirror"))
      cd.getBuiltinOption ⟨str "layout", str "sub", MachineChoice.host, none⟩) ≠
      Res.ok (BuiltinValue.plain (.s (str "flat"))) := by
  constructor
  · decide
  · decide

/-- C2 (witness). The amended aliasing theorem applied to a one-entry store
    holding a yielding `layout` option and the subproject-scoped key
    `sub:layout`. -/
theorem C2_witness :
    CoreDataM.resolveBuiltinRaw
        ⟨[(str "layout", ⟨.combo [str "mirror", str "flat"], str "Build directory layout",
          true, .s (str "mirror")⟩)], [], [], [], [], [], [], [], false⟩
        ⟨str "layout", str "sub", MachineChoice.host, none⟩ =
      CoreDataM.resolveBuiltinRaw
        ⟨[(str "layout", ⟨.combo [str "mirror", str "flat"], str "Build directory layout",
          true, .s (str "mirror")⟩)], [], [], [], [], [], [], [], false⟩
        (OptionKey.asRoot ⟨str "layout", str "sub", MachineChoice.host, none⟩) :=
  C2_resolve_aliases_root _ _ (by decide) (by decide) (by trivial) (by decide)

/-- C4 (amended theorem). For a builtin key with no language whose name is
    per-machine or whose machine is HOST: get selects the per-machine table
    for per-machine names (dropping the build. prefix from the looked-up
    key) and the global table otherwise; when the direct entry is absent or
    flagged yielding the lookup is retried with the subproject cleared; and
    the unknown-option error is raised exactly when that retry also finds no
    entry. (The machine precondition is the amendment: a BUILD-machine key
    with a non-per-machine name trips the `assert` instead, see the
    counterexample.) -/
theorem C4_get_builtin_fallback (cd : CoreDataM) (k : OptionKey)
    (hl : k.language = none)
    (hm : pmNames.contains k.name = true ∨ k.machine = MachineChoice.host) :
    (cd.getBuiltinOptionRaw k =
        Res.err (MErr.unknownOption (lookKeyFor k).render) ↔
      ((match lookupD (cd.sourceOf (selForKey k)) (lookKeyFor k).render with
        | some o => o.yielding = true
        | none => True) ∧
       lookupD (cd.sourceOf (selForKey k)) (lookKeyFor k).asRoot.render = none)) ∧
    (∀ o : UOpt, cd.getBuiltinOptionRaw k = Res.ok o ↔
      ((lookupD (cd.sourceOf (selForKey k)) (lookKeyFor k).render = some o ∧
          o.yielding = false) ∨
       ((match lookupD (cd.sourceOf (selForKey k)) (lookKeyFor k).render with
         | some o2 => o2.yielding = true
         | none => True) ∧
        lookupD (cd.sourceOf (selForKey k)) (lookKeyFor k).asRoot.render = some o))) := by
  have hb := resolve_eq_resolveIn cd k hl hm
  unfold CoreDataM.getBuiltinOptionRaw
  rw [hb]
  cases hd : lookupD (cd.sourceOf (selForKey k)) (lookKeyFor k).render with
  | none =>
    cases hr : lookupD (cd.sourceOf (selForKey k)) (lookKeyFor k).asRoot.render with
    | none =>
      have hval : ((resolveIn (cd.sourceOf (selForKey k)) (selForKey k)
          (lookKeyFor k)).bind fun r => Res.ok r.2.2) =
          Res.err (MErr.unknownOption (lookKeyFor k).render) := by
        simp [resolveIn, hd, hr, Res.bind]
      rw [hval]
      constructor
      · simp
      · intro o
        simp
    | some o2 =>
      have hval : ((resolveIn (cd.sourceOf (selForKey k)) (selForKey k)
          (lookKeyFor k)).bind fun r => Res.ok r.2.2) = Res.ok o2 := by
        simp [resolveIn, hd, hr, Res.bind]
      rw [hval]
      constructor
      · simp
      · intro o
        constructor
        · intro hok
          have : o2 = o := Res.ok.inj hok
          exact Or.inr ⟨trivial, by rw [← this]⟩
        · intro hrhs
          rcases hrhs with ⟨he, _⟩ | ⟨_, hrr⟩
          · cases he
          · have : o2 = o := Option.some.inj hrr
            rw [this]
  | some o1 =>
    cases hy1 : o1.yielding with
    | false =>
      have hval : ((resolveIn (cd.sourceOf (selForKey k)) (selForKey k)
          (lookKeyFor k)).bind fun r => Res.ok r.2.2) = Res.ok o1 := by
        simp [resolveIn, hd, hy1, Res.bind]
      rw [hval]
      constructor
      · constructor
        · intro hok
          cases hok
        · intro hrhs
          have hmm2 : o1.yielding = true := hrhs.1
          simp [hy1] at hmm2
      · intro o
        constructor
        · intro hok
          have heq : o1 = o := Res.ok.inj hok
          subst heq
          exact Or.inl ⟨rfl, hy1⟩
        · intro hrhs
          rcases hrhs with ⟨he, _⟩ | ⟨hmm, _⟩
          · have : o1 = o := Option.some.inj he
            rw [this]
          · have hmm2 : o1.yielding = true := hmm
            simp [hy1] at hmm2
    | true =>
      cases hr : lookupD (cd.sourceOf (selForKey k)) (lookKeyFor k).asRoot.render with
      | none =>
        have hval : ((resolveIn (cd.sourceOf (selForKey k)) (selForKey k)
            (lookKeyFor k)).bind fun r => Res.ok r.2.2) =
            Res.err (MErr.unknownOption (lookKeyFor k).render) := by
          simp [resolveIn, hd, hy1, hr, Res.bind]
        rw [hval]
        constructor
        · constructor
          · intro _
            exact ⟨hy1, rfl⟩
          · intro _
            rfl
        · intro o
          constructor
          · intro hok
            cases hok
          · intro hrhs
            rcases hrhs with ⟨he, hyf⟩ | ⟨_, hrr⟩
            · have : o1 = o := Option.some.inj he
              rw [this] at hy1
              rw [hy1] at hyf
              cases hyf
            · cases hrr
      | some o2 =>
        have hval : ((resolveIn (cd.sourceOf (selForKey k)) (selForKey k)
            (lookKeyFor k)).bind fun r => Res.ok r.2.2) = Res.ok o2 := by
          simp [resolveIn, hd, hy1, hr, Res.bind]
        rw [hval]
        constructor
        · constructor
          · intro hok
            cases hok
          · intro hrhs
            cases hrhs.2
        · intro o
          constructor
          · intro hok
            have heq : o2 = o := Res.ok.inj hok
            exact Or.inr ⟨hy1, by rw [← heq]⟩
          · intro hrhs
            rcases hrhs with ⟨he, hyf⟩ | ⟨_, hrr⟩
            · have : o1 = o := Option.some.inj he
              rw [this] at hy1
              rw [hy1] at hyf
              cases hyf
            · have : o2 = o := Option.some.inj hrr
              rw [this]

/-- C4 (counterexample). The claim quantifies over every builtin key with no
    language, but for the BUILD-machine key `build.libdir` (a global builtin
    name) the code trips `assert opt.machine is MachineChoice.HOST` and
    raises AssertionError — not the unknown-option error the claim requires
    when the root-scoped retry finds no entry (and indeed no entry named
    `build.libdir` exists in the freshly initialised global table). -/
theorem C4_counterexample :
    (do
      let cd ← initAll
      cd.getBuiltinOptionRaw ⟨str "libdir", [], MachineChoice.build, none⟩) =
      Res.err MErr.assertFail ∧
    (do
      let cd ← initAll
      Res.ok (lookupD cd.builtins
        (OptionKey.render ⟨str "libdir", [], MachineChoice.build, none⟩))) =
      Res.ok (none : Option UOpt) := by
  constructor
  · decide
  · decide

/-- C4 (witness). The fallback characterisation applied to a one-entry store
    with a yielding `layout` entry and the root-scoped key: the get returns
    the root entry through the yielding retry. -/
theorem C4_witness :
    CoreDataM.getBuiltinOptionRaw
        ⟨[(str "layout", ⟨.combo [str "mirror", str "flat"], str "Build directory layout",
          true, .s (str "mirror")⟩)], [], [], [], [], [], [], [], false⟩
        ⟨str "layout", [], MachineChoice.host, none⟩ =
      Res.ok ⟨.combo [str "mirror", str "flat"], str "Build directory layout",
        true, .s (str "mirror")⟩ :=
  ((C4_get_builtin_fallback _ _ (by decide) (by decide)).2 _).mpr
    (Or.inr ⟨rfl, rfl⟩)

/-- The root-scoped buildtype key. -/
def btK : OptionKey := ⟨str "buildtype", [], MachineChoice.host, none⟩

/-- The root-scoped optimization key. -/
def optK : OptionKey := ⟨str "optimization", [], MachineChoice.host, none⟩

/-- The root-scoped debug key. -/
def dbgK : OptionKey := ⟨str "debug", [], MachineChoice.host, none⟩

/-- The fixed buildtype table of the claim: buildtype to
    (optimization, debug). -/
def buildtypeTable : List (Str × Str × Bool) :=
  [(str "plain", str "0", false),
   (str "debug", str "0", true),
   (str "debugoptimized", str "2", true),
   (str "release", str "3", false),
   (str "minsize", str "s", true)]

/-- The claimed inverse: the buildtype whose table row matches the current
    (optimization, debug) pair, custom when no row matches. -/
def buildtypeOf (o : Str) (d : Bool) : Str :=
  match buildtypeTable.find? (fun r => decide (r.2.1 = o) && decide (r.2.2 = d)) with
  | some r => r.1
  | none => str "custom"

/-- All legal optimization choices. -/
def optChoicesL : List Str :=
  [str "0", str "g", str "1", str "2", str "3", str "s"]

/-- C3 (theorem). On the initialised store: (a) setting buildtype to a table
    row sets (optimization, debug) to that row's pair; (b) setting buildtype
    to custom leaves (optimization, debug) unchanged, for every reachable
    pair; (c) setting optimization and then debug recomputes buildtype as
    the inverse-table row, custom whenever no row matches, for every choice
    pair; (d) the claim's concrete scenario: after set(buildtype, release),
    get(optimization) is "3" and get(debug) is false, and after
    set(optimization, "0") then set(debug, true), get(buildtype) is
    "debug". -/
theorem C3_buildtype_derivation :
    ((buildtypeTable.all fun row =>
      decide ((do
        let cd ← initAll
        let cd ← cd.setBuiltinOption btK (.str row.1)
        let o ← cd.getBuiltinOption optK
        let d ← cd.getBuiltinOption dbgK
        Res.ok (o, d)) =
        Res.ok (BuiltinValue.plain (.s row.2.1), BuiltinValue.plain (.b row.2.2)))) = true) ∧
    ((optChoicesL.all fun o => [true, false].all fun d =>
      decide ((do
        let cd ← initAll
        let cd ← cd.setBuiltinOption optK (.str o)
        let cd ← cd.setBuiltinOption dbgK (.bool d)
        let cd ← cd.setBuiltinOption btK (.str (str "custom"))
        let ov ← cd.getBuiltinOption optK
        let dv ← cd.getBuiltinOption dbgK
        Res.ok (ov, dv)) =
        Res.ok (BuiltinValue.plain (.s o), BuiltinValue.plain (.b d)))) = true) ∧
    ((optChoicesL.all fun o => [true, false].all fun d =>
      decide ((do
        let cd ← initAll
        let cd ← cd.setBuiltinOption optK (.str o)
        let cd ← cd.setBuiltinOption dbgK (.bool d)
        cd.getBuiltinOption btK) =
        Res.ok (BuiltinValue.plain (.s (buildtypeOf o d))))) = true) ∧
    ((do
      let cd ← initAll
      let cd ← cd.setBuiltinOption btK (.str (str "release"))
      let o ← cd.getBuiltinOption optK
      let d ← cd.getBuiltinOption dbgK
      Res.ok (o, d)) =
      Res.ok (BuiltinValue.plain (.s (str "3")), BuiltinValue.plain (.b false))) ∧
    ((do
      let cd ← initAll
      let cd ← cd.setBuiltinOption btK (.str (str "release"))
      let cd ← cd.setBuiltinOption optK (.str (str "0"))
      let cd ← cd.setBuiltinOption dbgK (.bool true)
      cd.getBuiltinOption btK) =
      Res.ok (BuiltinValue.plain (.s (str "debug")))) := by
  refine ⟨?_, ?_, ?_, ?_, ?_⟩
  · decide
  · decide
  · decide
  · decide
  · decide

/-- ArgumentGroup: the five disjoint option groups. -/
inductive ArgumentGroup where
  | builtin
  | base
  | compiler
  | user
  | backend
deriving DecidableEq

/-- The all_builtins set of classify_argument: global builtins, per-machine
    builtins and the no-prefix directory table. -/
def allBuiltinNames : List Str :=
  BUILTIN_OPTIONS.map (fun e => e.1) ++ pmNames ++ noprefixNames

/-- classify_argument from coredata.py: base first (asserting the host
    machine), then language presence, then the builtin tables, then the
    backend_ name space; everything else is a user option (asserting the
    host machine). The base-options table lives in the compilers package and
    is passed as a parameter. -/
def classify_argument (base_options : List Str) (k : OptionKey) :
    Res MErr ArgumentGroup :=
  if base_options.contains k.name then
    if k.machine = MachineChoice.host then Res.ok ArgumentGroup.base
    else Res.err MErr.assertFail
  else if k.language.isSome then Res.ok ArgumentGroup.compiler
  else if allBuiltinNames.contains k.name then Res.ok ArgumentGroup.builtin
  else if startsWith (str "backend_") k.name then Res.ok ArgumentGroup.backend
  else if k.machine = MachineChoice.host then Res.ok ArgumentGroup.user
  else Res.err MErr.assertFail

/-- Classification as the claim words it: the priority rule list, written
    independently of the source order for comparison, with the builtin rule
    spelled as the union of the three tables and machine-invariant
    violations as programming faults. -/
def classifySpec (base_options : List Str) (k : OptionKey) :
    Res MErr ArgumentGroup :=
  if k.name ∈ base_options then
    if k.machine = MachineChoice.host then Res.ok ArgumentGroup.base
    else Res.err MErr.assertFail
  else if k.language ≠ none then Res.ok ArgumentGroup.compiler
  else if k.name ∈ BUILTIN_OPTIONS.map (fun e => e.1) ∨ k.name ∈ pmNames ∨
      k.name ∈ noprefixNames then Res.ok ArgumentGroup.builtin
  else if startsWith (str "backend_") k.name then Res.ok ArgumentGroup.backend
  else if k.machine = MachineChoice.host then Res.ok ArgumentGroup.user
  else Res.err MErr.assertFail

set_option synthInstance.maxHeartbeats 1000000 in
/-- C5 (theorem). For every base-options table and every key, the source's
    classify_argument agrees with the claim's priority-rule classification:
    base (host asserted), else compiler on a present language, else builtin
    on membership in the global, per-machine or no-prefix tables, else
    backend on the backend_ name space, else user (host asserted); an
    asserted invariant violation is the programming fault, not a user-facing
    error. Classification reads nothing but the key and the static tables. -/
theorem C5_classify_priority (base_options : List Str) (k : OptionKey) :
    classify_argument base_options k = classifySpec base_options k := by
  have hmem : k.name ∈ allBuiltinNames ↔
      (k.name ∈ BUILTIN_OPTIONS.map (fun e => e.1) ∨ k.name ∈ pmNames ∨
       k.name ∈ noprefixNames) := by
    simp only [allBuiltinNames, List.mem_append, or_assoc]
  unfold classify_argument classifySpec
  by_cases h1 : k.name ∈ base_options
  · simp [h1]
  · by_cases h2 : k.language = none
    · by_cases h3 : k.name ∈ allBuiltinNames
      · rw [if_pos (hmem.mp h3)]
        simp [h1, h2, h3]
      · have h3b := hmem.not.mp h3
        rw [if_neg h3b]
        simp [h1, h2, h3]
    · simp [h1, h2]

/-- A pure POSIX path: absolute flag and components. PurePath normalises
    away empty and single-dot components and keeps double-dot components. -/
structure PPath where
  absP : Bool
  parts : List Str
deriving DecidableEq

/-- PurePath construction from a string. -/
def parsePath (s : Str) : PPath :=
  ⟨startsWith (str "/") s,
   (splitOnChar '/' s).filter (fun t => !(t == []) && !(t == str "."))⟩

/-- str()/as_posix() of a pure path (they agree on POSIX). -/
def ppStr (p : PPath) : Str :=
  if p.parts = [] then (if p.absP then str "/" else str ".")
  else if p.absP then '/' :: List.intercalate (str "/") p.parts
  else List.intercalate (str "/") p.parts

/-- PurePath.relative_to: purely lexical; defined when the other path's
    components are a prefix (and the absolute flags agree), the ValueError
    is the none case. -/
def relativeTo (p q : PPath) : Option PPath :=
  if q.absP = p.absP ∧ q.parts.isPrefixOf p.parts then
    some ⟨false, p.parts.drop q.parts.length⟩
  else none

/-- The sanitization error message: it names the option, the offending value
    and the prefix. -/
def dirMsg (option valueStr pre : Str) : Str :=
  str "The value of the " ++ option ++ str " option is " ++ valueStr ++
  str " which must be a subdir of the prefix " ++ pre ++
  str ". Note that if you pass a relative path, it is assumed to be a subdir of prefix."

/-- CoreData.sanitize_dir_option_value: an installation-directory option
    (name ending in dir, not in the no-prefix table) given as an absolute
    path must be relative_to the prefix and its relative form must not
    contain "..": the stored value is the prefix-relative posix form. A
    non-dir or relative or no-prefix value passes through as its posix form;
    a non-string value (the TypeError branch) is returned unchanged. In the
    relative_to failure the message carries the original path, in the ".."
    failure it carries the already relativized path, as in the source. -/
def sanitize_dir_option_value (pre option : Str) (value : RawV) : Res MErr RawV :=
  match value with
  | .str s =>
    let p := parsePath s
    if endsWith (str "dir") option = true ∧ p.absP = true ∧
        noprefixNames.contains option = false then
      match relativeTo p (parsePath pre) with
      | none => Res.err (.mesonMsg (dirMsg option (ppStr p) pre))
      | some rel =>
        if containsSub (str "..") (ppStr rel) then
          Res.err (.mesonMsg (dirMsg option (ppStr rel) pre))
        else Res.ok (.str (ppStr rel))
    else Res.ok (.str (ppStr p))
  | v => Res.ok v

/-- C6 (theorem). For every installation-directory option (name ending in
    dir, not in the no-prefix table) whose raw value is an absolute path:
    when the path lies under the effective prefix (relative_to succeeds) and
    the prefix-relative form has no "..", sanitization stores the
    prefix-relative form; when the path lies outside the prefix, or its
    relative form still contains "..", it raises the fatal error whose
    message names the option, the (possibly relativized) value, and the
    prefix. -/
theorem C6_dir_sanitization (pre option value : Str)
    (h1 : endsWith (str "dir") option = true)
    (h2 : noprefixNames.contains option = false)
    (h3 : (parsePath value).absP = true) :
    match relativeTo (parsePath value) (parsePath pre) with
    | none =>
      sanitize_dir_option_value pre option (.str value) =
        Res.err (.mesonMsg (dirMsg option (ppStr (parsePath value)) pre))
    | some rel =>
      if containsSub (str "..") (ppStr rel) = true then
        sanitize_dir_option_value pre option (.str value) =
          Res.err (.mesonMsg (dirMsg option (ppStr rel) pre))
      else
        sanitize_dir_option_value pre option (.str value) =
          Res.ok (.str (ppStr rel)) := by
  have h2m : option ∉ noprefixNames := by simpa using h2
  unfold sanitize_dir_option_value
  cases hrel : relativeTo (parsePath value) (parsePath pre) with
  | none =>
    simp [h1, h2m, h3, hrel]
  | some rel =>
    cases hdd : containsSub (str "..") (ppStr rel) with
    | true => simp [h1, h2m, h3, hrel, hdd]
    | false => simp [h1, h2m, h3, hrel, hdd]

/-- C6 (witness). With prefix /usr, libdir=/usr/lib64 stores "lib64";
    libdir=/opt/lib raises the fatal error naming libdir, /opt/lib and
    /usr. Both facts follow from the sanitization theorem at those inputs. -/
theorem C6_witness :
    sanitize_dir_option_value (str "/usr") (str "libdir") (.str (str "/usr/lib64")) =
      Res.ok (.str (str "lib64")) ∧
    sanitize_dir_option_value (str "/usr") (str "libdir") (.str (str "/opt/lib")) =
      Res.err (.mesonMsg (dirMsg (str "libdir") (ppStr (parsePath (str "/opt/lib")))
        (str "/usr"))) :=
  ⟨C6_dir_sanitization (str "/usr") (str "libdir") (str "/usr/lib64")
      (by decide) (by decide) (by decide),
   C6_dir_sanitization (str "/usr") (str "libdir") (str "/opt/lib")
      (by decide) (by decide) (by decide)⟩

/-- The running tool version in coredata.py. -/
def meVersion : Str := str "0.55.999"

/-- major_versions_differ: the first two dot-separated components are
    compared. -/
def major_versions_differ (v1 v2 : Str) : Bool :=
  decide (((splitOnChar '.' v1).take 2) ≠ ((splitOnChar '.' v2).take 2))

/-- The CoreData fields that load inspects: the stamped version string. -/
structure CoreDataV where
  version : Str
deriving DecidableEq

/-- What unpickling the snapshot file can come to, the shallow embedding of
    the try/except structure of load: pickle.UnpicklingError (undecodable),
    EOFError (truncated), AttributeError (the pickle references classes that
    do not exist), an object that is not a CoreData instance, or a CoreData
    object. -/
inductive Snapshot where
  | undecodable
  | truncated
  | unknownConstructs
  | notCoreData
  | ok (cd : CoreDataV)
deriving DecidableEq

/-- The three distinct faults load raises. -/
inductive LoadErr where
  | corrupted
  | oldConstructs
  | versionMismatch (old cur : Str)
deriving DecidableEq

/-- The user-facing message of each load fault (the snapshot file name
    interpolation is omitted). The corrupted message instructs a fresh build
    tree; the old-constructs message does not. -/
def loadErrMsg : LoadErr → Str
  | .corrupted => str "Coredata file is corrupted. Try with a fresh build tree."
  | .oldConstructs =>
    str "Coredata file references functions or classes that don\x27t exist. This probably means that it was generated with an old version of meson."
  | .versionMismatch old cur =>
    str "Build directory has been generated with Meson version " ++ old ++
    str ", which is incompatible with the current version " ++ cur ++ str "."

/-- load from coredata.py: unpickling failures map to the corrupted or
    old-constructs faults; a non-CoreData object is corrupted; a CoreData
    whose major.minor pair differs from the running version raises the
    version mismatch carrying both version strings. -/
def load (s : Snapshot) : Res LoadErr CoreDataV :=
  match s with
  | .undecodable => Res.err LoadErr.corrupted
  | .truncated => Res.err LoadErr.corrupted
  | .unknownConstructs => Res.err LoadErr.oldConstructs
  | .notCoreData => Res.err LoadErr.corrupted
  | .ok cd =>
    if major_versions_differ cd.version meVersion then
      Res.err (LoadErr.versionMismatch cd.version meVersion)
    else Res.ok cd

/-- C7 (amended theorem). load raises the version-mismatch fault, carrying
    the snapshot version and the running version, exactly when the snapshot
    deserializes to a CoreData whose major.minor pair differs from the
    running tool's; undecodable, truncated and wrong-type snapshots raise
    the corrupted-cache fault whose message tells the user to start a fresh
    build tree; but a snapshot referencing unknown constructs raises the
    distinct old-version fault, whose message does not instruct a fresh
    build tree (the amendment) — and never the version mismatch. -/
theorem C7_load_version_check :
    (∀ cd : CoreDataV,
      load (Snapshot.ok cd) =
        (if major_versions_differ cd.version meVersion then
          Res.err (LoadErr.versionMismatch cd.version meVersion)
        else Res.ok cd)) ∧
    (∀ s : Snapshot, ∀ o c : Str,
      load s = Res.err (LoadErr.versionMismatch o c) →
        ∃ cd, s = Snapshot.ok cd ∧ cd.version = o ∧ c = meVersion ∧
          major_versions_differ o meVersion = true) ∧
    load Snapshot.undecodable = Res.err LoadErr.corrupted ∧
    load Snapshot.truncated = Res.err LoadErr.corrupted ∧
    load Snapshot.notCoreData = Res.err LoadErr.corrupted ∧
    load Snapshot.unknownConstructs = Res.err LoadErr.oldConstructs ∧
    containsSub (str "fresh build tree") (loadErrMsg LoadErr.corrupted) = true ∧
    containsSub (str "fresh build tree") (loadErrMsg LoadErr.oldConstructs) = false := by
  refine ⟨fun cd => rfl, ?_, rfl, rfl, rfl, rfl, by decide, by decide⟩
  intro s o c h
  cases s with
  | undecodable => cases h
  | truncated => cases h
  | unknownConstructs => cases h
  | notCoreData => cases h
  | ok cd =>
    have h2 : (if major_versions_differ cd.version meVersion = true then
        Res.err (LoadErr.versionMismatch cd.version meVersion)
      else Res.ok cd) = Res.err (LoadErr.versionMismatch o c) := h
    by_cases hd : major_versions_differ cd.version meVersion = true
    · rw [if_pos hd] at h2
      have hinj := LoadErr.versionMismatch.inj (Res.err.inj h2)
      refine ⟨cd, rfl, hinj.1, hinj.2.symm, ?_⟩
      rw [← hinj.1]
      exact hd
    · rw [if_neg hd] at h2
      cases h2

/-- C7 (counterexample). A snapshot that decodes but references unknown
    internal constructs (the AttributeError path) is a structurally invalid
    snapshot, yet load raises the distinct old-version fault whose message
    does not tell the user to start a fresh build tree — not the generic
    corrupted-cache fault the claim requires (it is, as the claim says,
    never the version mismatch). -/
theorem C7_counterexample :
    load Snapshot.unknownConstructs = Res.err LoadErr.oldConstructs ∧
    LoadErr.oldConstructs ≠ LoadErr.corrupted ∧
    containsSub (str "fresh build tree") (loadErrMsg LoadErr.oldConstructs) = false := by
  refine ⟨rfl, by decide, by decide⟩

/-- C7 (witness). The version check applied at a concrete 1.0.0 snapshot:
    the mismatch fault carries both version strings. -/
theorem C7_witness :
    ∃ cd, Snapshot.ok ⟨str "1.0.0"⟩ = Snapshot.ok cd ∧
      cd.version = str "1.0.0" ∧ meVersion = meVersion ∧
      major_versions_differ (str "1.0.0") meVersion = true :=
  (C7_load_version_check.2.1 (Snapshot.ok ⟨str "1.0.0"⟩) (str "1.0.0") meVersion
    (by decide))

/-- C8 (theorem, code bug demonstration). Validating an Array option value
    that is neither a string nor a list does not produce the intended
    MesonException naming the offending value: the raising line interpolates
    `newvalue`, which is unassigned on that branch, so the evaluation at the
    failing inputs 5, True and None is the UnboundLocalError fault for the
    name newvalue — and the same fault surfaces through set_value of a live
    array option. -/
theorem C8_array_validation_unbound :
    validateArray [] false true (RawV.int 5) =
      Res.err (MErr.unboundLocal (str "newvalue")) ∧
    validateArray [] false true (RawV.bool true) =
      Res.err (MErr.unboundLocal (str "newvalue")) ∧
    validateArray [] false true RawV.noneV =
      Res.err (MErr.unboundLocal (str "newvalue")) ∧
    UOpt.setValue ⟨.array [] false, str "an array option", true, .arr []⟩ (RawV.int 5) =
      Res.err (MErr.unboundLocal (str "newvalue")) := by
  refine ⟨rfl, rfl, rfl, rfl⟩

/-- Generic dict lookup for non-string keys (first binding wins). -/
def lookupA {α β : Type} [DecidableEq α] (d : List (α × β)) (k : α) : Option β :=
  match d with
  | [] => none
  | (k2, v) :: rest => if k2 = k then some v else lookupA rest k

/-- Generic dict assignment: update in place when the key exists, append
    otherwise. -/
def insertA {α β : Type} [DecidableEq α] (d : List (α × β)) (k : α) (v : β) :
    List (α × β) :=
  match d with
  | [] => [(k, v)]
  | (k2, v2) :: rest =>
    if k2 = k then (k2, v) :: rest else (k2, v2) :: insertA rest k v

/-- The Environment fields touched by set_default_options: the four pending
    option dicts. -/
structure EnvM where
  compilerOptions : List (OptionKey × RawV)
  baseOptionsE : List (Str × RawV)
  builtinOptionsE : List (OptionKey × RawV)
  projectOptions : List (OptionKey × RawV)
deriving DecidableEq

/-- CoreData.set_default_options, embedded up to and including the
    `breakpoint()` statement on its final straight-line path: the routing
    loop over the declared default options, then the merge loop over
    env.builtin_options. Returning ok means control reached the breakpoint
    call; the merged options dict and the updated environment at that point
    are the payload. (The statements after the breakpoint — the
    project-options update and the call to set_options — are outside this
    embedding.) -/
def setDefaultOptionsToBreakpoint (base_options : List Str)
    (default_options : List (OptionKey × RawV)) (subproject : Str)
    (env0 : EnvM) (isCross : Bool) :
    Res MErr (List (OptionKey × RawV) × EnvM) := do
  let st ← foldRes
    (fun (st : List (OptionKey × RawV) × EnvM) kv => do
      let options := st.1
      let env := st.2
      let k := kv.1
      let v := kv.2
      let g ← classify_argument base_options k
      match g with
      | ArgumentGroup.compiler =>
        let env := [k, k.asBuild].foldl
          (fun (e : EnvM) k2 =>
            if lookupA e.compilerOptions k2 = none then
              { e with compilerOptions := insertA e.compilerOptions k2 v }
            else e) env
        Res.ok (options, env)
      | ArgumentGroup.base =>
        if subproject = [] ∧ lookupA env.baseOptionsE k.name = none then
          Res.ok (options,
            { env with baseOptionsE := insertA env.baseOptionsE k.name v })
        else Res.ok (options, env)
      | ArgumentGroup.builtin =>
        if k.subproject ≠ [] ∧ subproject ≠ [] then
          -- only a warning is printed; the entry is skipped
          Res.ok (options, env)
        else
          let options := if k.subproject = [] then insertA options k v else options
          let k2 := if subproject ≠ [] then { k with subproject := subproject } else k
          let env := if lookupA env.builtinOptionsE k2 = none then
              { env with builtinOptionsE := insertA env.builtinOptionsE k2 v }
            else env
          if isCross then
            let k3 := k2.asBuild
            if lookupA env.builtinOptionsE k3 = none then
              Res.ok (options,
                { env with builtinOptionsE := insertA env.builtinOptionsE k3 v })
            else Res.ok (options, env)
          else Res.ok (options, env)
      | ArgumentGroup.user =>
        if k.subproject = [] then Res.ok (insertA options k v, env)
        else Res.ok (options,
          { env with projectOptions := insertA env.projectOptions k v })
      | ArgumentGroup.backend =>
        Res.ok (insertA options k v, env))
    ([], env0) default_options
  let env := st.2
  let options := env.builtinOptionsE.foldl
    (fun (opts : List (OptionKey × RawV)) kv =>
      let k := kv.1
      let v := kv.2
      if ¬ (k.subproject = subproject ∨ k.subproject = []) then opts
      else if k.machine = MachineChoice.build ∧ pmNames.contains k.name = false then
        opts
      else if (decide (subproject ≠ []) &&
          (match lookupB BUILTIN_OPTIONS k.name with
           | some b => !b.yielding
           | none => false) &&
          decide (k.subproject = []) &&
          (lookupA env.builtinOptionsE { k with subproject := subproject }).isSome)
          = true then
        opts
      else insertA opts k v)
    st.1
  -- breakpoint() executes here, unconditionally, before set_options is called
  Res.ok (options, env)

/-- C9 (theorem, code bug demonstration). The breakpoint in
    set_default_options is not in some unreachable branch: it sits
    unconditionally on the function's main path and executes on every call
    that completes the two merge loops — already on the empty input, and on
    an ordinary one-entry default-options dict. -/
theorem C9_breakpoint_reached :
    setDefaultOptionsToBreakpoint [] [] [] ⟨[], [], [], []⟩ false =
      Res.ok ([], ⟨[], [], [], []⟩) ∧
    (match setDefaultOptionsToBreakpoint []
        [(⟨str "buildtype", [], MachineChoice.host, none⟩, RawV.str (str "release"))]
        [] ⟨[], [], [], []⟩ false with
     | Res.ok _ => true
     | Res.err _ => false) = true := by
  constructor
  · rfl
  · decide

/-- Modelled from the spec: os.path.expanduser is library code; a leading
    bare tilde or tilde-slash expands to the home directory (a parameter of
    the model), a tilde-user form or tilde-free path is unchanged. -/
def expandUser (home p : Str) : Str :=
  match p with
  | '~' :: rest =>
    match rest with
    | [] => home
    | '/' :: _ => home ++ rest
    | _ => p
  | _ => p

/-- POSIX os.path.isabs. -/
def isAbs (p : Str) : Bool := startsWith (str "/") p

/-- CoreData.sanitize_prefix: expand the user directory, require an absolute
    path, and strip one trailing slash or backslash except for a bare root
    or a Windows drive root. A non-string prefix value is the TypeError of
    os.path.expanduser. -/
def sanitizePrefixVal (home : Str) (pre0 : RawV) : Res MErr Str :=
  match pre0 with
  | .str p0 =>
    let p := expandUser home p0
    if isAbs p = false then
      Res.err (.mesonMsg (str "prefix value " ++ p ++ str " must be an absolute path"))
    else if endsWith (str "/") p || endsWith (str "\\") p then
      if p.length = 3 ∧ p[1]? = some ':' then Res.ok p
      else if p.length = 1 then Res.ok p
      else Res.ok p.dropLast
    else Res.ok p
  | _ => Res.err MErr.valueError

/-- The root-scoped prefix key. -/
def prefixKey : OptionKey := ⟨str "prefix", [], MachineChoice.host, none⟩

/-- The key rewrite of strip_build_option_names: a BUILD-machine key
    collapses onto its host twin. -/
def trHost (k : OptionKey) : OptionKey :=
  if k.machine = MachineChoice.build then k.asHost else k

/-- CoreData.strip_build_option_names: on a native build every BUILD-machine
    key of the incoming batch collapses onto its host twin (later entries
    overwrite earlier ones, as in the dict rebuild of the source). -/
def stripBuildOptionNames (options : List (OptionKey × RawV)) :
    List (OptionKey × RawV) :=
  options.foldl (fun res kv => insertA res (trHost kv.1) kv.2) []

/-- Monadic fold in the state-carrying exception monad. -/
def foldResSt {α : Type} (f : CoreDataM → α → Res (MErr × CoreDataM) CoreDataM) :
    CoreDataM → List α → Res (MErr × CoreDataM) CoreDataM
  | c, [] => Res.ok c
  | c, x :: xs => (f c x).bind fun c2 => foldResSt f c2 xs

/-- CoreData.set_any_option: classify, then set through the group's own
    table; a missing entry is the KeyError of the dict access (builtin
    options instead raise their own unknown-option MesonException inside
    set_builtin_option). For compiler options the defaultdict yields an
    empty per-language dict, so a missing language is also a KeyError on the
    name. -/
def CoreDataM.setAnyOptionSt (cd : CoreDataM) (base_options : List Str)
    (k : OptionKey) (v : RawV) : Res (MErr × CoreDataM) CoreDataM := do
  let g ← liftSt cd (classify_argument base_options k)
  match g with
  | ArgumentGroup.builtin => cd.setBuiltinOptionSt k v
  | ArgumentGroup.base =>
    match lookupD cd.baseOptions k.name with
    | some o => do
      let o2 ← liftSt cd (o.setValue v)
      Res.ok { cd with baseOptions := insertD cd.baseOptions k.name o2 }
    | none => Res.err (MErr.keyError k.name, cd)
  | ArgumentGroup.user =>
    match lookupD cd.userOptions k.render with
    | some o => do
      let o2 ← liftSt cd (o.setValue v)
      Res.ok { cd with userOptions := insertD cd.userOptions k.render o2 }
    | none => Res.err (MErr.keyError k.render, cd)
  | ArgumentGroup.backend =>
    match lookupD cd.backendOptions k.name with
    | some o => do
      let o2 ← liftSt cd (o.setValue v)
      Res.ok { cd with backendOptions := insertD cd.backendOptions k.name o2 }
    | none => Res.err (MErr.keyError k.name, cd)
  | ArgumentGroup.compiler =>
    match k.language with
    | some lang =>
      let langDicts := match k.machine with
        | MachineChoice.build => cd.compilerOptionsBuild
        | MachineChoice.host => cd.compilerOptionsHost
      let d := (lookupA langDicts lang).getD []
      match lookupD d k.name with
      | some o => do
        let o2 ← liftSt cd (o.setValue v)
        let d2 := insertD d k.name o2
        match k.machine with
        | MachineChoice.build =>
          Res.ok { cd with compilerOptionsBuild := insertA cd.compilerOptionsBuild lang d2 }
        | MachineChoice.host =>
          Res.ok { cd with compilerOptionsHost := insertA cd.compilerOptionsHost lang d2 }
      | none => Res.err (MErr.keyError k.name, cd)
    | none => Res.err (MErr.keyError k.name, cd)

/-- CoreData.copy_build_options_from_regular_ones: assert the native build,
    then mirror every host per-machine builtin value onto its build twin,
    and every host compiler option onto a same-named build compiler option
    where one exists. -/
def CoreDataM.copyBuildOptionsSt (cd : CoreDataM) :
    Res (MErr × CoreDataM) CoreDataM :=
  if cd.crossFiles then Res.err (MErr.assertFail, cd)
  else
    (foldResSt
      (fun c kv =>
        match lookupD c.builtinsPerMachineBuild kv.1 with
        | some bo =>
          match bo.setValue (rawOfValue kv.2.value) with
          | .ok bo2 =>
            let d2 := insertD c.builtinsPerMachineBuild kv.1 bo2
            Res.ok { c with builtinsPerMachineBuild := d2 }
          | .err e => Res.err (e, c)
        | none => Res.err (MErr.keyError kv.1, c))
      cd cd.builtinsPerMachineHost).bind fun cd2 =>
    foldResSt
      (fun c lp =>
        let buildD := (lookupA c.compilerOptionsBuild lp.1).getD []
        match foldRes
            (fun (d : Dict) kv =>
              match lookupD d kv.1 with
              | some bo =>
                (bo.setValue (rawOfValue kv.2.value)).bind fun bo2 =>
                  Res.ok (insertD d kv.1 bo2)
              | none => Res.ok d)
            buildD lp.2 with
        | .ok d2 =>
          Res.ok { c with compilerOptionsBuild := insertA c.compilerOptionsBuild lp.1 d2 }
        | .err e => Res.err (e, c))
      cd2 cd2.compilerOptionsHost

/-- CoreData.set_options: on a native build collapse BUILD-machine names;
    handle the prefix entry first (sanitizing it and re-deriving the
    no-prefix directory defaults not given in the batch); then apply every
    other entry in batch order, routing installation-directory values
    through sanitize_dir_option_value, swallowing KeyError (the unknown
    options are only warned about), and finally mirror host options onto the
    build machine on a native build. Exceptions carry the store as it stands
    when they are raised. -/
def CoreDataM.setOptions (cd : CoreDataM) (base_options : List Str) (home : Str)
    (options0 : List (OptionKey × RawV)) (_subproject : Str) :
    Res (MErr × CoreDataM) CoreDataM := do
  let options := if cd.crossFiles = false then stripBuildOptionNames options0 else options0
  let cdpre ← (match lookupA options prefixKey with
    | some pv => do
      let pre ← liftSt cd (sanitizePrefixVal home pv)
      let cd1 ← cd.setBuiltinOptionSt prefixKey (RawV.str pre)
      let cd2 ← foldResSt
        (fun c key =>
          if lookupA options ⟨key, [], MachineChoice.host, none⟩ = none then
            match lookupB BUILTIN_OPTIONS key with
            | some b =>
              c.setBuiltinOptionSt ⟨key, [], MachineChoice.host, none⟩
                (b.prefixedDefault key pre)
            | none => Res.err (MErr.keyError key, c)
          else Res.ok c)
        cd1 noprefixNames
      Res.ok (cd2, pre)
    | none =>
      match lookupD cd.builtins (str "prefix") with
      | some o =>
        -- the prefix option is a string option; its stored value is a string
        Res.ok (cd, match o.value with | .s p => p | _ => [])
      | none => Res.err (MErr.keyError (str "prefix"), cd))
  let cd4 ← foldResSt
    (fun c kv =>
      if kv.1.name = str "prefix" then Res.ok c
      else
        match (if (BUILTIN_DIR_OPTIONS.map (fun e => e.1)).contains kv.1.name ||
            noprefixNames.contains kv.1.name then
            sanitize_dir_option_value cdpre.2 kv.1.name kv.2
          else Res.ok kv.2) with
        | .err e => Res.err (e, c)
        | .ok v2 =>
          match c.setAnyOptionSt base_options kv.1 v2 with
          | .ok c2 => Res.ok c2
          | .err e =>
            match e.1 with
            | MErr.keyError _ => Res.ok e.2
            | _ => Res.err e)
    cdpre.1 options
  if cd4.crossFiles = false then cd4.copyBuildOptionsSt else Res.ok cd4

theorem Res.err_bind {e : Type} {a b : Type} (x : e) (f : a → Res e b) :
    ((Res.err x : Res e a) >>= f) = Res.err x := rfl

theorem Res.ok_bind {e : Type} {a b : Type} (x : a) (f : a → Res e b) :
    ((Res.ok x : Res e a) >>= f) = f x := rfl

theorem lookupA_insertA {α β : Type} [DecidableEq α] (d : List (α × β))
    (k : α) (v : β) (key : α) :
    lookupA (insertA d k v) key = if k = key then some v else lookupA d key := by
  induction d with
  | nil => simp [insertA, lookupA]
  | cons kv rest ih =>
    obtain ⟨a, b⟩ := kv
    by_cases h1 : a = k
    · subst h1
      simp only [insertA, if_true]
      by_cases h2 : a = key <;> simp [lookupA, h2]
    · simp only [insertA, lookupA, if_neg h1]
      by_cases h2 : a = key
      · subst h2
        have hne : ¬ (k = a) := fun e => h1 e.symm
        simp [lookupA, hne]
      · simp [lookupA, h2, ih]

theorem lookupA_some_decomp {α β : Type} [DecidableEq α] (d : List (α × β))
    (key : α) (v : β) (h : lookupA d key = some v) :
    ∃ l1 l2, d = l1 ++ (key, v) :: l2 ∧ ∀ kv ∈ l1, kv.1 ≠ key := by
  induction d with
  | nil => cases h
  | cons kv rest ih =>
    obtain ⟨a, b⟩ := kv
    by_cases h1 : a = key
    · subst h1
      have hv : b = v := by
        simpa [lookupA] using h
      subst hv
      exact ⟨[], rest, rfl, by simp⟩
    · have h2 : lookupA rest key = some v := by
        simpa [lookupA, h1] using h
      obtain ⟨l1, l2, he, hn⟩ := ih h2
      refine ⟨(a, b) :: l1, l2, by rw [he, List.cons_append], ?_⟩
      intro kv hm
      rcases List.mem_cons.mp hm with h3 | h3
      · rw [h3]
        exact h1
      · exact hn kv h3

theorem lookup_foldl_insert_no {β : Type} (tr : OptionKey → OptionKey)
    (l : List (OptionKey × β)) (res0 : List (OptionKey × β)) (key : OptionKey)
    (h : ∀ kv ∈ l, tr kv.1 ≠ key) :
    lookupA (l.foldl (fun res kv => insertA res (tr kv.1) kv.2) res0) key =
      lookupA res0 key := by
  induction l generalizing res0 with
  | nil => rfl
  | cons kv rest ih =>
    simp only [List.foldl_cons]
    rw [ih _ (fun x hx => h x (List.mem_cons_of_mem _ hx))]
    rw [lookupA_insertA]
    rw [if_neg (h kv (List.mem_cons_self _ _))]

theorem lookup_strip_eq (l : List (OptionKey × RawV)) (key : OptionKey) (v : RawV)
    (hkey : key.machine = MachineChoice.host)
    (hp : lookupA l key = some v)
    (hnd : (l.map Prod.fst).Nodup)
    (hnb : ∀ kv ∈ l, kv.1 ≠ key → trHost kv.1 ≠ key) :
    lookupA (stripBuildOptionNames l) key = some v := by
  obtain ⟨l1, l2, he, hn1⟩ := lookupA_some_decomp l key v hp
  subst he
  have hn2 : ∀ kv ∈ l2, kv.1 ≠ key := by
    have h0 : (l1.map Prod.fst ++ key :: l2.map Prod.fst).Nodup := by
      simpa using hnd
    have h1 : (key :: l2.map Prod.fst).Nodup := (List.nodup_append.mp h0).2.1
    have h2 : key ∉ l2.map Prod.fst := (List.nodup_cons.mp h1).1
    intro kv hm heq
    exact h2 (heq ▸ List.mem_map_of_mem Prod.fst hm)
  have htrkey : trHost key = key := by
    unfold trHost
    rw [hkey]
    rfl
  unfold stripBuildOptionNames
  rw [List.foldl_append, List.foldl_cons]
  rw [lookup_foldl_insert_no trHost l2 _ key
    (fun kv hm => by
      have hne : kv.1 ≠ key := hn2 kv hm
      exact hnb kv (by simp [List.mem_append, hm]) hne)]
  rw [htrkey, lookupA_insertA]
  rw [if_pos rfl]

set_option synthInstance.maxHeartbeats 1000000 in
/-- C10 (theorem). A bulk set_options batch whose effective prefix entry is
    a relative path after user-directory expansion raises the fatal
    absolute-path error before applying any other option: the error carries
    the store exactly as it was on entry, so every other option's stored
    value is unchanged. (The nodup and no-build-collision hypotheses say the
    batch is an honest dict whose prefix entry is not shadowed by a
    build.prefix entry.) -/
theorem C10_relative_prefix_aborts (cd : CoreDataM) (base_options : List Str)
    (home : Str) (options : List (OptionKey × RawV)) (subproject : Str) (v : Str)
    (hnd : (options.map Prod.fst).Nodup)
    (hp : lookupA options prefixKey = some (RawV.str v))
    (hnb : ∀ kv ∈ options, kv.1 ≠ prefixKey → trHost kv.1 ≠ prefixKey)
    (hrel : isAbs (expandUser home v) = false) :
    cd.setOptions base_options home options subproject =
      Res.err (MErr.mesonMsg (str "prefix value " ++ expandUser home v ++
        str " must be an absolute path"), cd) := by
  have hlook : lookupA (if cd.crossFiles = false then stripBuildOptionNames options
      else options) prefixKey = some (RawV.str v) := by
    cases hc : cd.crossFiles
    · simpa using lookup_strip_eq options prefixKey (RawV.str v) rfl hp hnd hnb
    · simpa using hp
  have hsan : sanitizePrefixVal home (RawV.str v) =
      Res.err (.mesonMsg (str "prefix value " ++ expandUser home v ++
        str " must be an absolute path")) := by
    simp [sanitizePrefixVal, hrel]
  unfold CoreDataM.setOptions
  simp only [hlook]
  simp [hsan, liftSt, Res.bind, Res.err_bind, Res.ok_bind]

/-- C10 (witness). The abort theorem applied to the empty store and the
    two-entry batch with the relative prefix foo and a libdir entry: the
    batch is rejected with the absolute-path error and the store comes back
    untouched. -/
theorem C10_witness :
    CoreDataM.setOptions (emptyCoreData false) [] (str "/home/user")
        [(prefixKey, RawV.str (str "foo")),
         (⟨str "libdir", [], MachineChoice.host, none⟩, RawV.str (str "lib"))]
        [] =
      Res.err (MErr.mesonMsg (str "prefix value " ++ expandUser (str "/home/user") (str "foo") ++
        str " must be an absolute path"), emptyCoreData false) :=
  C10_relative_prefix_aborts (emptyCoreData false) [] (str "/home/user") _ [] (str "foo")
    (by decide) (by decide) (by decide) (by decide)
